import Mathlib

/-!
Verification development for the DRRM disaster-impact data sanitation
pipeline (repository `risk_analysis`).

The definitions below are a shallow embedding of the Python sources:

* `parse_date_range_smart`, `clean_numeric_cell`, the row-validation loop
  and the clean/erroneous partition come from
  `src/drrm_datasets/sanitizer_test.py`;
* `parse_date_range` and the quarantine overwrite come from
  `src/process_error_rows.py`;
* the lookup de-duplication comes from `src/psgc_lookup.py`
  (`drop_duplicates(subset=..., keep='first')`, also used at
  `sanitizer_test.py` line 217).

Modelling conventions:

* pandas / Python `datetime.date` values are `PDate` (proleptic Gregorian
  year/month/day with the usual leap rule, which is what both
  `datetime` and `calendar.monthrange` implement);
* `NaN` / missing cells are `Option.none`;
* the regular expressions used by the source are hand-compiled to
  deterministic scanners over `List Char`.  Each use is noted next to the
  definition; the character classes are the ASCII parts of `[a-zA-Z]`,
  `\d`, `\s`, `\w` (the spreadsheets at issue are ASCII);
* numeric cells are parsed to `Rat` (the Python code uses floats; none of
  the verified properties depends on float rounding);
* `pd.to_numeric` / `pd.to_datetime` are library calls; they are modelled
  by explicit parsers for the literal formats the pipeline feeds them,
  as documented at `parseNumeric`, `isoMatch` and `pdToDatetime`.
-/

namespace RiskAnalysis

/-- ASCII letter, the regex class `[a-zA-Z]`. -/
def isAsciiLetter (c : Char) : Bool :=
  ('a' ≤ c && c ≤ 'z') || ('A' ≤ c && c ≤ 'Z')

/-- ASCII digit, the regex class `\d` (and Python `str.isdigit` on ASCII). -/
def isDigitCh (c : Char) : Bool := '0' ≤ c && c ≤ '9'

/-- Whitespace, the regex class `\s` / the characters stripped by `str.strip`. -/
def isWS (c : Char) : Bool := c = ' ' || c = '\t' || c = '\n' || c = '\r'

/-- Word character, the regex class `\w` (ASCII model). -/
def isWordCh (c : Char) : Bool := isAsciiLetter c || isDigitCh c || c = '_'

/-- Python `str.strip()` on a character list. -/
def trimChars (l : List Char) : List Char :=
  ((l.dropWhile isWS).reverse.dropWhile isWS).reverse

/-- Decimal value of a digit run (Python `int` on a digit string). -/
def digitsToNat (l : List Char) : Nat :=
  l.foldl (fun n c => 10 * n + (c.toNat - '0'.toNat)) 0

/-- `pat` is a prefix of `l` (character lists). -/
def hasPre : List Char → List Char → Bool
  | [], _ => true
  | _ :: _, [] => false
  | a :: as, b :: bs => a == b && hasPre as bs

/-- `pat` occurs as a contiguous substring of `l`: Python `pat in l`. -/
def subStr (pat : List Char) : List Char → Bool
  | [] => hasPre pat []
  | t :: ts => hasPre pat (t :: ts) || subStr pat ts

/-- Python `pat in s` on strings. -/
def strIn (pat s : String) : Bool := subStr pat.data s.data

/-- Calendar date, the embedding of Python `datetime.date`. -/
structure PDate where
  year : Int
  month : Nat
  day : Nat
deriving Repr, DecidableEq

/-- Gregorian leap-year rule (as used by `calendar.monthrange` / `datetime`). -/
def isLeap (y : Int) : Bool := y % 4 = 0 && (y % 100 ≠ 0 || y % 400 = 0)

/-- `calendar.monthrange(y, m)[1]`: number of days of month `m` of year `y`. -/
def daysInMonth (y : Int) (m : Nat) : Nat :=
  if m = 2 then (if isLeap y then 29 else 28)
  else if m = 4 ∨ m = 6 ∨ m = 9 ∨ m = 11 then 30
  else 31

/-- `datetime.date(y, m, d)`: validated date construction (raises = `none`). -/
def mkDate (y : Int) (m d : Nat) : Option PDate :=
  if 1 ≤ m ∧ m ≤ 12 ∧ 1 ≤ d ∧ d ≤ daysInMonth y m then some ⟨y, m, d⟩ else none

/-- Date comparison `a <= b` (as Python compares `datetime.date`). -/
def dateLe (a b : PDate) : Prop :=
  a.year < b.year ∨
    (a.year = b.year ∧ (a.month < b.month ∨ (a.month = b.month ∧ a.day ≤ b.day)))

instance (a b : PDate) : Decidable (dateLe a b) := by
  unfold dateLe; infer_instance

/-- Month number from a `%B` month-name token (`strptime` is case-insensitive). -/
def monthFromName (w : List Char) : Option Nat :=
  let u := w.map Char.toUpper
  if u = "JANUARY".data then some 1
  else if u = "FEBRUARY".data then some 2
  else if u = "MARCH".data then some 3
  else if u = "APRIL".data then some 4
  else if u = "MAY".data then some 5
  else if u = "JUNE".data then some 6
  else if u = "JULY".data then some 7
  else if u = "AUGUST".data then some 8
  else if u = "SEPTEMBER".data then some 9
  else if u = "OCTOBER".data then some 10
  else if u = "NOVEMBER".data then some 11
  else if u = "DECEMBER".data then some 12
  else none

/-- Value of a `%d` day token: `strptime` accepts `3[01]|[12]\d|0[1-9]|[1-9]`,
i.e. a one- or two-digit token with value 1..31. -/
def dayTokenVal (t : List Char) : Option Nat :=
  let v := digitsToNat t
  if 1 ≤ v ∧ v ≤ 31 ∧ (t.length = 1 ∨ t.length = 2) then some v else none

/-- A raw date cell: missing (`pd.isna`), a native Excel datetime, or text. -/
inductive DateCell where
  | nan : DateCell
  | native : PDate → DateCell
  | text : String → DateCell

/-- The Python return triple `(start_date, end_date, remark)` where each
component may be `None`. -/
abbrev ParseTriple := Option PDate × Option PDate × Option String

/-- `abs(y - fb) > 1`, the ±1-year sanity bound of the parser. -/
def yearsDiffer (y fb : Int) : Bool := decide (1 < (y - fb).natAbs)

/-- `f"Year in date string ({y}) differs significantly from Year column ({fb})."` -/
def msgDifferStr (y fb : Int) : String :=
  "Year in date string (" ++ toString y ++ ") differs significantly from Year column ("
    ++ toString fb ++ ")."

/-- `f"Year in Excel date ({y}) differs significantly from Year column ({fb})."` -/
def msgDifferExcel (y fb : Int) : String :=
  "Year in Excel date (" ++ toString y ++ ") differs significantly from Year column ("
    ++ toString fb ++ ")."

/-- `f"Year in date string ({sy}-{ey}) differs significantly from Year column ({fb})."` -/
def msgDifferRange (sy ey fb : Int) : String :=
  "Year in date string (" ++ toString sy ++ "-" ++ toString ey
    ++ ") differs significantly from Year column (" ++ toString fb ++ ")."

/-- `sanitizer_test.py` lines 53-59: a cell that is already a native
datetime value. -/
def parseNative (d : PDate) (hint : Option Int) : ParseTriple :=
  match hint with
  | some f =>
      if yearsDiffer d.year f then (none, none, some (msgDifferExcel d.year f))
      else (some d, some d, some "Parsed from a native Excel date format.")
  | none => (some d, some d, some "Parsed from a native Excel date format.")

/-- Scanner for the line-71 regex
`^([a-zA-Z]+)\s+(\d{1,2})(?:\s*-\s*(\d{1,2}))?,\s*(\d{4})$`
(anchored both ends; all classes are pairwise disjoint so greedy matching is
maximal-munch).  Captures (month word, start-day digits, optional end-day
digits, year). -/
def p1Tail (letters d1 : List Char) (d2 : Option (List Char)) (r : List Char) :
    Option (List Char × List Char × Option (List Char) × Nat) :=
  match r with
  | ',' :: r1 =>
      let r2 := r1.dropWhile isWS
      let y := r2.takeWhile isDigitCh
      let r3 := r2.dropWhile isDigitCh
      if y.length = 4 ∧ r3 = [] then some (letters, d1, d2, digitsToNat y) else none
  | _ => none

def p1Match (l : List Char) :
    Option (List Char × List Char × Option (List Char) × Nat) :=
  let letters := l.takeWhile isAsciiLetter
  let r1 := l.dropWhile isAsciiLetter
  if letters = [] then none else
  let ws1 := r1.takeWhile isWS
  let r2 := r1.dropWhile isWS
  if ws1 = [] then none else
  let d1 := r2.takeWhile isDigitCh
  let r3 := r2.dropWhile isDigitCh
  if d1 = [] ∨ 2 < d1.length then none else
  let w2 := r3.takeWhile isWS
  let r4 := r3.dropWhile isWS
  match r4 with
  | '-' :: r5 =>
      let r6 := r5.dropWhile isWS
      let d2 := r6.takeWhile isDigitCh
      let r7 := r6.dropWhile isDigitCh
      if d2 = [] ∨ 2 < d2.length then none else p1Tail letters d1 (some d2) r7
  | _ => if w2 = [] then p1Tail letters d1 none r3 else none

/-- Lines 82-84: the ±1-year cross-check of pattern 1, performed after the
dates were built. -/
def p1Finish (s e : PDate) (remark : String) (y : Nat) (fb : Option Int) :
    ParseTriple :=
  match fb with
  | some f =>
      if yearsDiffer (y : Int) f then (none, none, some (msgDifferStr (y : Int) f))
      else (some s, some e, some remark)
  | none => (some s, some e, some remark)

/-- Lines 72-84: build the result of pattern 1.  `strptime`/`replace`
failures raise `ValueError`, caught at line 177, so they yield
`(None, None, None)`. -/
def p1Build (letters d1 : List Char) (d2? : Option (List Char)) (y : Nat)
    (fb : Option Int) : ParseTriple :=
  match monthFromName letters with
  | none => (none, none, none)
  | some m =>
    match dayTokenVal d1 with
    | none => (none, none, none)
    | some dv =>
      match mkDate (y : Int) m dv with
      | none => (none, none, none)
      | some start =>
        match d2? with
        | some d2 =>
          match mkDate (y : Int) m (digitsToNat d2) with
          | none => (none, none, none)
          | some en => p1Finish start en "Parsed from 'Month Day-Day, Year' format." y fb
        | none => p1Finish start start "Parsed as a single day event." y fb

/-- Scanner for the line-87 regex `(\w+)-(\w+)\s+(\d{4})` (anchored at the
start only — `re.match`; no `$`, so trailing text is ignored and the year is
the first four digits of the digit run). -/
def p2Match (l : List Char) : Option (List Char × List Char × Nat) :=
  let w1 := l.takeWhile isWordCh
  let r1 := l.dropWhile isWordCh
  if w1 = [] then none else
  match r1 with
  | '-' :: r2 =>
    let w2 := r2.takeWhile isWordCh
    let r3 := r2.dropWhile isWordCh
    if w2 = [] then none else
    let ws := r3.takeWhile isWS
    let r4 := r3.dropWhile isWS
    if ws = [] then none else
    let ds := r4.takeWhile isDigitCh
    if ds.length < 4 then none else some (w1, w2, digitsToNat (ds.take 4))
  | _ => none

/-- Lines 93-98: dates of pattern 2 (start = 1st of first month, end = last
calendar day of the second month); a non-month word raises, giving
`(None, None, None)`. -/
def p2Dates (w1 w2 : List Char) (y : Nat) : ParseTriple :=
  match monthFromName w1 with
  | none => (none, none, none)
  | some m1 =>
    match monthFromName w2 with
    | none => (none, none, none)
    | some m2 =>
      (some ⟨(y : Int), m1, 1⟩, some ⟨(y : Int), m2, daysInMonth (y : Int) m2⟩,
       some "Parsed from month-only range; assumed full month coverage.")

/-- Lines 88-98: pattern 2; the ±1-year check (lines 91-92) runs before the
months are parsed. -/
def p2Build (w1 w2 : List Char) (y : Nat) (fb : Option Int) : ParseTriple :=
  match fb with
  | some f =>
      if yearsDiffer (y : Int) f then (none, none, some (msgDifferStr (y : Int) f))
      else p2Dates w1 w2 y
  | none => p2Dates w1 w2 y

/-- Scanner for the line-101 regex `(\w+)\s+(\d{4})$` (anchored both ends). -/
def p3Match (l : List Char) : Option (List Char × Nat) :=
  let w := l.takeWhile isWordCh
  let r1 := l.dropWhile isWordCh
  if w = [] then none else
  let ws := r1.takeWhile isWS
  let r2 := r1.dropWhile isWS
  if ws = [] then none else
  let ds := r2.takeWhile isDigitCh
  let r3 := r2.dropWhile isDigitCh
  if ds.length = 4 ∧ r3 = [] then some (w, digitsToNat ds) else none

/-- Line 102 extra condition: `'-' not in date_str and 'to' not in
date_str.lower()`. -/
def p3Cond (l : List Char) : Bool :=
  !(l.contains '-') && !(subStr ['t', 'o'] (l.map Char.toLower))

/-- Lines 107-111: dates of pattern 3 (whole month). -/
def p3Dates (w : List Char) (y : Nat) : ParseTriple :=
  match monthFromName w with
  | none => (none, none, none)
  | some m =>
      (some ⟨(y : Int), m, 1⟩, some ⟨(y : Int), m, daysInMonth (y : Int) m⟩,
       some "Parsed from month-only value; assumed full month.")

/-- Lines 103-111: pattern 3; the ±1-year check (lines 105-106) runs before
the month is parsed. -/
def p3Build (w : List Char) (y : Nat) (fb : Option Int) : ParseTriple :=
  match fb with
  | some f =>
      if yearsDiffer (y : Int) f then (none, none, some (msgDifferStr (y : Int) f))
      else p3Dates w y
  | none => p3Dates w y

/-- Exactly `n` digits at the head of `l` (the digit run must not be longer,
since `\d{n}` is always followed by a non-digit in the line-114 regex). -/
def exactDigits (n : Nat) (l : List Char) : Option (Nat × List Char) :=
  let ds := l.takeWhile isDigitCh
  if ds.length = n then some (digitsToNat ds, l.drop n) else none

/-- Lines 114-121: the strict ISO pattern
`^\d{4}-\d{2}-\d{2}(?:\s+\d{2}:\d{2}:\d{2})?$` combined with
`pd.to_datetime(..., errors='coerce')` validity: `some` exactly when the
regex matches and the timestamp is a real calendar date with a valid time
of day.  (pandas additionally restricts timestamps to the years 1677-2262;
that bound only moves certain far-out-of-range years from this branch to
the generic fallback and is not modelled.)  A regex miss and a `NaT` both
fall through to the next stage in the source, hence a single `none`. -/
def isoMatch (l : List Char) : Option PDate :=
  match exactDigits 4 l with
  | none => none
  | some (y, r1) =>
    match r1 with
    | '-' :: r2 =>
      match exactDigits 2 r2 with
      | none => none
      | some (mo, r3) =>
        match r3 with
        | '-' :: r4 =>
          match exactDigits 2 r4 with
          | none => none
          | some (d, r5) =>
            match r5 with
            | [] => mkDate (y : Int) mo d
            | _ =>
              let ws := r5.takeWhile isWS
              let r6 := r5.dropWhile isWS
              if ws = [] then none else
              match exactDigits 2 r6 with
              | some (hh, ':' :: r7) =>
                match exactDigits 2 r7 with
                | some (mi, ':' :: r8) =>
                  match exactDigits 2 r8 with
                  | some (ss, []) =>
                      if hh < 24 ∧ mi < 60 ∧ ss < 60 then mkDate (y : Int) mo d else none
                  | _ => none
                | _ => none
              | _ => none
        | _ => none
    | _ => none

/-- Lines 118-121: result of the ISO pattern. -/
def isoBuild (d : PDate) (fb : Option Int) : ParseTriple :=
  match fb with
  | some f =>
      if yearsDiffer d.year f then (none, none, some (msgDifferStr d.year f))
      else (some d, some d, some "Parsed from a standard timestamp format.")
  | none => (some d, some d, some "Parsed from a standard timestamp format.")

/-- One separator of the line-126 split regex `\s*-\s*|\s+to\s+`
(IGNORECASE) matched at the head of `l`: returns the remainder after the
separator.  The first alternative is tried first, as `re` does. -/
def splitSepAt (l : List Char) : Option (List Char) :=
  let w1 := l.takeWhile isWS
  let r1 := l.dropWhile isWS
  match r1 with
  | '-' :: r2 => some (r2.dropWhile isWS)
  | t :: o :: r2 =>
    if w1 = [] then none
    else if (t = 't' ∨ t = 'T') ∧ (o = 'o' ∨ o = 'O') then
      let w2 := r2.takeWhile isWS
      if w2 = [] then none else some (r2.dropWhile isWS)
    else none
  | _ => none

/-- `re.split(r'\s*-\s*|\s+to\s+', s)`: scan left to right, splitting at
each leftmost non-overlapping separator match.  Every separator consumes at
least one character, so `l.length + 1` steps of fuel always suffice. -/
def reSplitGo : Nat → List Char → List Char → List (List Char)
  | _, acc, [] => [acc.reverse]
  | 0, acc, l => [acc.reverse ++ l]
  | fuel + 1, acc, c :: rest =>
    match splitSepAt (c :: rest) with
    | some r => acc.reverse :: reSplitGo fuel [] r
    | none => reSplitGo fuel (c :: acc) rest

def reSplit (l : List Char) : List (List Char) := reSplitGo (l.length + 1) [] l

/-- `re.search(r'(\d{4})', s)`: the first run of four consecutive digits. -/
def searchYear : List Char → Option Nat
  | a :: b :: c :: d :: rest =>
    if isDigitCh a ∧ isDigitCh b ∧ isDigitCh c ∧ isDigitCh d then
      some (digitsToNat [a, b, c, d])
    else searchYear (b :: c :: d :: rest)
  | _ => none

/-- A match of the line-133 removal regex `\s*,?\s*\d{4}` at the head of
`l` (returns the remainder after the four digits; a fifth digit stays). -/
def yearSpanAt (l : List Char) : Option (List Char) :=
  let r1 := l.dropWhile isWS
  let r2 := match r1 with
            | ',' :: t => t
            | _ => r1
  let r3 := r2.dropWhile isWS
  if (r3.take 4).length = 4 ∧ (r3.take 4).all isDigitCh then some (r3.drop 4)
  else none

/-- `re.sub(r'\s*,?\s*\d{4}', '', s)`: remove every non-overlapping match,
scanning left to right.  Each match consumes at least four characters. -/
def subYearGo : Nat → List Char → List Char
  | 0, l => l
  | _, [] => []
  | fuel + 1, c :: rest =>
    match yearSpanAt (c :: rest) with
    | some r => subYearGo fuel r
    | none => c :: subYearGo fuel rest

def subYear (l : List Char) : List Char := subYearGo (l.length + 1) l

/-- `datetime.strptime(s, "%B %d")`: a full month name, whitespace, and a
valid `%d` day token, matching the whole string; `strptime` builds the date
in year 1900, so the day must also be valid for that (non-leap) year. -/
def strptimeBD (l : List Char) : Option (Nat × Nat) :=
  let letters := l.takeWhile isAsciiLetter
  let r1 := l.dropWhile isAsciiLetter
  match monthFromName letters with
  | none => none
  | some m =>
    let ws := r1.takeWhile isWS
    let r2 := r1.dropWhile isWS
    if ws = [] then none else
    let ds := r2.takeWhile isDigitCh
    let r3 := r2.dropWhile isDigitCh
    if ds ≠ [] ∧ ds.length ≤ 2 ∧ r3 = [] then
      match dayTokenVal ds with
      | some d => if d ≤ daysInMonth 1900 m then some (m, d) else none
      | none => none
    else none

/-- `datetime.strptime(s, "%B")`: the whole string is one month name. -/
def strptimeB (l : List Char) : Option Nat :=
  let letters := l.takeWhile isAsciiLetter
  if letters = l then monthFromName letters else none

/-- Python `sep.join(parts)`. -/
def joinSep (sep : String) : List String → String
  | [] => ""
  | [a] => a
  | a :: b :: rest => a ++ sep ++ joinSep sep (b :: rest)

/-- Lines 170-175: the final ±1-year validation and remark assembly of the
generic fallback. -/
def fbFinish (s e : PDate) (remarks : List String) (f : Int) : ParseTriple :=
  if 1 < (s.year - f).natAbs ∨ 1 < (e.year - f).natAbs then
    (none, none, some (msgDifferRange s.year e.year f))
  else
    (some s, some e,
     some (joinSep " "
       (if remarks = [] then ["Parsed as a standard date range."] else remarks)))

/-- Lines 143-168: process the end phrase of the generic fallback. -/
def fbEnd (startD : PDate) (remarks : List String) (startClean : List Char)
    (nParts : Nat) (endStr : List Char) (f : Int) : ParseTriple :=
  let endYear : Int := match searchYear endStr with
                       | some y => (y : Int)
                       | none => startD.year
  let endClean := trimChars (subYear endStr)
  if nParts = 1 then
    let remarks1 :=
      if subStr "Start date assumed".data (joinSep " " remarks).data
          ∧ startClean = endClean then remarks
      else remarks ++ ["Parsed as a single day event."]
    fbFinish startD startD remarks1 f
  else if endClean ≠ [] ∧ endClean.all isDigitCh then
    -- lines 151-157: both the `strptime` re-check of the start phrase and the
    -- `replace(day=...)` sit inside one `try`, so either failure yields the
    -- "Ambiguous range" reason
    match strptimeBD startClean with
    | none => (none, none, some "Ambiguous range (Month to Day)")
    | some _ =>
      match mkDate startD.year startD.month (digitsToNat endClean) with
      | none => (none, none, some "Ambiguous range (Month to Day)")
      | some e =>
          fbFinish startD e (remarks ++ ["Parsed as a date range within the same month."]) f
  else
    match strptimeBD endClean with
    | some (m, d) => fbFinish startD ⟨endYear, m, d⟩ remarks f
    | none =>
      match strptimeB endClean with
      | some m =>
          fbFinish startD ⟨endYear, m, daysInMonth endYear m⟩
            (remarks ++ ["End date assumed as last day of month."]) f
      | none => (none, none, some "Invalid end month name")

/-- Lines 126-175: the generic fallback over the split phrases. -/
def fallbackCore (parts : List (List Char)) (f : Int) : ParseTriple :=
  let startStr := parts.headD []
  let endStr := parts.getLastD []
  let startYear : Int := match searchYear startStr with
                         | some y => (y : Int)
                         | none => f
  let startClean := trimChars (subYear startStr)
  match strptimeBD startClean with
  | some (m, d) => fbEnd ⟨startYear, m, d⟩ [] startClean parts.length endStr f
  | none =>
    match strptimeB startClean with
    | some m =>
        fbEnd ⟨startYear, m, 1⟩ ["Start date assumed as 1st of month."] startClean
          parts.length endStr f
    | none => (none, none, some "Invalid start month name")

/-- Lines 113-175: the ISO stage followed by the final fallback (reached
when none of patterns 1-3 matched, or when pattern 3 matched but its line-102
extra condition failed). -/
def isoFall (l : List Char) (fb : Option Int) : ParseTriple :=
  match isoMatch l with
  | some d => isoBuild d fb
  | none =>
    match fb with
    | none => (none, none, some "Missing Year column value needed for ambiguous date string.")
    | some f => fallbackCore (reSplit l) f

/-- `parse_date_range_smart(date_str, year_original_val)` of
`src/drrm_datasets/sanitizer_test.py` lines 44-179.  The year hint is the
`year_original` column after `pd.to_numeric(..., errors='coerce')`, i.e. a
numeric value or `NaN`, modelled as `Option Int` (so the `int(...)`
conversion of lines 64-67 always succeeds and its "Invalid Year column
value" branch is unreachable). -/
def parse_date_range_smart (cell : DateCell) (year_original_val : Option Int) :
    ParseTriple :=
  match cell with
  | .nan => (none, none, none)
  | .native d => parseNative d year_original_val
  | .text s =>
    let l := trimChars s.data
    match p1Match l with
    | some (w, d1, d2, y) => p1Build w d1 d2 y year_original_val
    | none =>
      match p2Match l with
      | some (w1, w2, y) => p2Build w1 w2 y year_original_val
      | none =>
        match p3Match l with
        | some (w, y) =>
            if p3Cond l then p3Build w y year_original_val
            else isoFall l year_original_val
        | none => isoFall l year_original_val

/-! ## Numeric coercion (`clean_numeric_column`, lines 36-41) -/

/-- `str.replace(',', '')`: drop every comma. -/
def removeCommas (l : List Char) : List Char := l.filter (· ≠ ',')

/-- Value of an unsigned decimal numeral `digits[.digits]` (at least one
digit in total), as accepted by `pd.to_numeric` on a plain decimal string. -/
def parseUnsigned (l : List Char) : Option Rat :=
  let ip := l.takeWhile isDigitCh
  let r1 := l.drop ip.length
  match r1 with
  | [] => if ip = [] then none else some ((digitsToNat ip : Nat) : Rat)
  | '.' :: fr =>
    if fr.all isDigitCh ∧ (ip ≠ [] ∨ fr ≠ []) then
      some (((digitsToNat ip : Nat) : Rat)
        + ((digitsToNat fr : Nat) : Rat) / ((10 : Rat) ^ fr.length))
    else none
  | _ => none

/-- Model of `pd.to_numeric(s, errors='coerce')` on an already-stripped
string: an optionally signed plain decimal numeral, `none` for anything
else (the model omits exponent/`inf`/`nan` literals, which the pipeline
treats as missing anyway). -/
def parseNumFrom (l : List Char) : Option Rat :=
  match l with
  | [] => parseUnsigned []
  | c :: r =>
    if c = '-' then (parseUnsigned r).map Neg.neg
    else if c = '+' then parseUnsigned r
    else parseUnsigned (c :: r)

/-- The cleaned cell text: `series.astype(str).str.replace(',', '',
regex=False).str.strip().replace('-', '0', regex=False)` — drop commas,
strip, then turn a cell that is exactly `-` into `0` (the last `replace` is
the whole-cell `Series.replace`). -/
def cleanedCell (s : String) : List Char :=
  let t := trimChars (removeCommas s.data)
  if t = ['-'] then ['0'] else t

/-- `clean_numeric_column` (lines 36-41), per cell: clean, coerce, and fill
failures with `0`. -/
def clean_numeric_cell (s : String) : Rat :=
  (parseNumFrom (cleanedCell s)).getD 0

/-! ## Row validation (`sanitize_data`, lines 292-339) -/

/-- A row as it reaches the validation loop: canonical fields after header
renaming, uppercase conversion, the PSGC merge and numeric cleaning,
together with the two raw cells quoted in error messages
(`df_original_structure`). -/
structure Row where
  province : Option String
  municipality : Option String
  year_original : Option Int
  year_raw : String
  date_raw : String
  date_cell : DateCell
  psgc_code : Option String
  area_partially_damaged_ha : Rat
  area_totally_damaged_ha : Rat
  area_total_affected_ha : Rat
  losses_php_grand_total : Rat

/-- `pd.isna(v) or str(v).strip() == ''` (lines 304, 306). -/
def fieldMissing (v : Option String) : Bool :=
  match v with
  | none => true
  | some s => trimChars s.data = []

/-- The parse triple attached to the row (line 284). -/
def parseOf (row : Row) : ParseTriple :=
  parse_date_range_smart row.date_cell row.year_original

def msgProv : String := "Missing essential field (province)."

def msgMun : String := "Missing essential field (municipality)."

/-- Line 311. -/
def msgYear (raw : String) : String :=
  "Original Year column is not a valid number: '" ++ raw ++ "'"

/-- Lines 317-318: the date-parse failure message, extended with the
parser's remark when that remark is a specific failure reason. -/
def msgUnparseable (raw : String) (remark : Option String) : String :=
  let base := "Unparseable date: '" ++ raw ++ "'"
  match remark with
  | some r =>
      if r ≠ "" ∧ (strIn "Invalid" r ∨ strIn "Ambiguous" r ∨ strIn "differs significantly" r)
      then base ++ " (" ++ r ++ ")" else base
  | none => base

def msgGrand : String := "Missing or zero Grand Total for PHP loss."

/-- Lines 326-328. -/
def msgPsgc (p m : String) : String :=
  "PSGC code not found for province/municipality: '" ++ p ++ "' / '" ++ m ++ "'."

/-- `YYYY-MM-DD` rendering of a date (`datetime.date.__str__`); the years in
scope are four-digit. -/
def fmtDate (d : PDate) : String :=
  toString d.year ++ "-" ++ (if d.month < 10 then "0" else "") ++ toString d.month
    ++ "-" ++ (if d.day < 10 then "0" else "") ++ toString d.day

/-- Line 332. -/
def msgOrder (s e : PDate) : String :=
  "Date range invalid: Start date (" ++ fmtDate s ++ ") is after end date ("
    ++ fmtDate e ++ ")."

/-- Line 337 (the numerals are rendered via `Rat`; only the fixed prefix of
this message matters to the verified properties). -/
def msgArea (p t tot : Rat) : String :=
  "Area inconsistency: Partial(" ++ toString p ++ ") + Totally(" ++ toString t
    ++ ") != Total(" ++ toString tot ++ ")."

/-- `"; ".join(reasons)` (line 339, and the line-325 substring check). -/
def joinSemi (l : List String) : String := joinSep "; " l

/-- Lines 304-307: province/municipality checks. -/
def reasons1 (row : Row) : List String :=
  (if fieldMissing row.province then [msgProv] else [])
    ++ (if fieldMissing row.municipality then [msgMun] else [])

/-- Lines 309-311: original-year check. -/
def reasons2 (row : Row) : List String :=
  reasons1 row ++ (if row.year_original = none then [msgYear row.year_raw] else [])

/-- Lines 313-319: date-parse check. -/
def reasons3 (row : Row) : List String :=
  reasons2 row
    ++ (if (parseOf row).1 = none then [msgUnparseable row.date_raw (parseOf row).2.2] else [])

/-- Line 320: grand-total check. -/
def reasons4 (row : Row) : List String :=
  reasons3 row ++ (if row.losses_php_grand_total = 0 then [msgGrand] else [])

/-- `province_val if pd.notna(province_val) else "MISSING"` (lines 326-327). -/
def psgcDisp (v : Option String) : String := v.getD "MISSING"

/-- Lines 322-328: PSGC check, suppressed when the concatenated reasons so
far contain `"Missing essential field"`. -/
def reasons5 (lookupConfigured : Bool) (row : Row) : List String :=
  reasons4 row
    ++ (if row.psgc_code = none ∧ lookupConfigured = true
          ∧ strIn "Missing essential field" (joinSemi (reasons4 row)) = false
        then [msgPsgc (psgcDisp row.province) (psgcDisp row.municipality)] else [])

/-- Lines 330-332: the date ordering check fires only when both dates are
present (`pd.notna(start_date) and pd.notna(end_date)`). -/
def orderViolation (t : ParseTriple) : List String :=
  match t.1, t.2.1 with
  | some s, some e => if ¬ dateLe s e then [msgOrder s e] else []
  | _, _ => []

def reasons6 (lookupConfigured : Bool) (row : Row) : List String :=
  reasons5 lookupConfigured row ++ orderViolation (parseOf row)

/-- Lines 334-337: area-consistency check. -/
def areaViolated (row : Row) : Prop :=
  (0 < row.area_partially_damaged_ha ∨ 0 < row.area_totally_damaged_ha)
    ∧ 0 < row.area_total_affected_ha
    ∧ ¬ |row.area_partially_damaged_ha + row.area_totally_damaged_ha
          - row.area_total_affected_ha| < 1 / 100

instance (row : Row) : Decidable (areaViolated row) := by
  unfold areaViolated; infer_instance

/-- The full violation list of one row (lines 296-339 of `sanitize_data`). -/
def validateRow (lookupConfigured : Bool) (row : Row) : List String :=
  reasons6 lookupConfigured row
    ++ (if areaViolated row
        then [msgArea row.area_partially_damaged_ha row.area_totally_damaged_ha
                row.area_total_affected_ha] else [])

/-- `error_reason` column (line 339). -/
def error_reason (lookupConfigured : Bool) (row : Row) : String :=
  joinSemi (validateRow lookupConfigured row)

/-! ## Partitioning (`sanitize_data`, lines 232-233 and 344-350) -/

/-- Line 233: `df_original_structure['source_row_number'] = df.index + 3`
(`idx` is the 0-based dataframe position). -/
def sourceRowNumber (idx : Nat) : Nat := idx + 3

/-- The sheet is read with `header=1`, so a dataframe row at 0-based
position `idx` sits at 1-based sheet position `idx + 1` plus this offset. -/
def headerOffset : Nat := 2

/-- Lines 344-350: split a batch (rows tagged with their dataframe index)
into clean rows (`error_reason == ''`) and erroneous rows (non-empty),
the latter merged with their `source_row_number`. -/
def partitionRows (lookupConfigured : Bool) (rows : List (Nat × Row)) :
    List (Nat × Row) × List (Nat × Row × Nat) :=
  ((rows.filter fun p => error_reason lookupConfigured p.2 == ""),
   (rows.filter fun p => !(error_reason lookupConfigured p.2 == "")).map
     fun p => (p.1, p.2, sourceRowNumber p.1))

/-! ## Lookup de-duplication (`psgc_lookup.py` lines 56-61 and
`sanitizer_test.py` line 217): `drop_duplicates(subset=['province_name',
'municipality_name'], keep='first')`. -/

structure LookupRow where
  province_name : String
  municipality_name : String
  psgc_code : String
deriving Repr, DecidableEq

def lookupKey (r : LookupRow) : String × String := (r.province_name, r.municipality_name)

def dropDupGo (seen : List (String × String)) : List LookupRow → List LookupRow
  | [] => []
  | r :: rest =>
    if lookupKey r ∈ seen then dropDupGo seen rest
    else r :: dropDupGo (lookupKey r :: seen) rest

/-- `drop_duplicates(subset=[province, municipality], keep='first')`. -/
def drop_duplicates (l : List LookupRow) : List LookupRow := dropDupGo [] l

/-! ## Quarantine overwrite (`process_error_rows.py`, lines 191-200) -/

/-- `shutil.rmtree(QUARANTINE_LAKEHOUSE_PATH)`: the table is gone. -/
def rmTree {α : Type} (_store : Option (List α)) : Option (List α) := none

/-- `write_deltalake(..., mode='overwrite')`: the table now holds exactly
the written batch. -/
def writeOverwrite {α : Type} (_store : Option (List α)) (batch : List α) :
    Option (List α) := some batch

/-- Lines 193-200: remove the quarantine table if it exists, then write the
processed batch with overwrite semantics. -/
def quarantine_write {α : Type} (prior : Option (List α)) (batch : List α) :
    Option (List α) :=
  writeOverwrite (if prior.isSome then rmTree prior else prior) batch

/-! ## The quarantine-loop date parser (`process_error_rows.py`, lines
50-81) -/

/-- Model of unqualified `pd.to_datetime(s)` for the formats this pipeline
feeds it: strict ISO timestamps and `"Month D[,] YYYY"`.  Free-text range
expressions such as `"July 16- August 11, 2025"` are not a format pandas
accepts and raise (here: `none`). -/
def mdyMatch (l : List Char) : Option PDate :=
  let letters := l.takeWhile isAsciiLetter
  let r1 := l.dropWhile isAsciiLetter
  match monthFromName letters with
  | none => none
  | some m =>
    let ws := r1.takeWhile isWS
    let r2 := r1.dropWhile isWS
    if ws = [] then none else
    let ds := r2.takeWhile isDigitCh
    let r3 := r2.dropWhile isDigitCh
    if ds = [] ∨ 2 < ds.length then none else
    let r4 := match r3 with
              | ',' :: t => t.dropWhile isWS
              | _ => r3.dropWhile isWS
    let ys := r4.takeWhile isDigitCh
    let r5 := r4.dropWhile isDigitCh
    if ys.length = 4 ∧ r5 = [] then mkDate ((digitsToNat ys : Nat) : Int) m (digitsToNat ds)
    else none

def pdToDatetime (l : List Char) : Option PDate :=
  match isoMatch l with
  | some d => some d
  | none => mdyMatch l

/-- The last run of four consecutive digits in `l` (what the greedy
`.*(\d{4})` captures). -/
def lastYearGo (best : Option (List Char)) : List Char → Option (List Char)
  | a :: b :: c :: d :: rest =>
    if isDigitCh a ∧ isDigitCh b ∧ isDigitCh c ∧ isDigitCh d then
      lastYearGo (some [a, b, c, d]) (b :: c :: d :: rest)
    else lastYearGo best (b :: c :: d :: rest)
  | _ => best

/-- A match of `(\w+\s+\d+)[,-]?.*(\d{4})` (line 68) starting at the head
of `l`: word run, whitespace run and digit run are forced maximal by class
disjointness; the trailing `(\d{4})` is the last four-digit run of the
remainder; when no four-digit run follows the first digit run, the engine
backtracks and splits that run, keeping its last four digits for group 2
(possible only when the run has at least five digits). -/
def dpAt (l : List Char) : Option (List Char × List Char) :=
  let w := l.takeWhile isWordCh
  let r1 := l.dropWhile isWordCh
  if w = [] then none else
  let ws := r1.takeWhile isWS
  let r2 := r1.dropWhile isWS
  if ws = [] then none else
  let ds := r2.takeWhile isDigitCh
  let r3 := r2.dropWhile isDigitCh
  if ds = [] then none else
  let rest := match r3 with
              | ',' :: t => t
              | '-' :: t => t
              | _ => r3
  match lastYearGo none rest with
  | some g2 => some (w ++ ws ++ ds, g2)
  | none =>
    if 5 ≤ ds.length then
      some (w ++ ws ++ ds.take (ds.length - 4), ds.drop (ds.length - 4))
    else none

/-- `re.search`: leftmost match of the line-68 pattern. -/
def searchDP : List Char → Option (List Char × List Char)
  | [] => none
  | c :: rest =>
    match dpAt (c :: rest) with
    | some g => some g
    | none => searchDP rest

/-- `parse_date_range(date_str)` of `src/process_error_rows.py` lines
50-81.  `pd.NaT` is `none`.  A native datetime value stringifies to an ISO
timestamp, which `pd.to_datetime` accepts. -/
def parse_date_range (cell : DateCell) : Option PDate × Option PDate :=
  match cell with
  | .nan => (none, none)
  | .native d => (some d, some d)
  | .text s =>
    let l := trimChars s.data
    match pdToDatetime l with
    | some d => (some d, some d)
    | none =>
      match searchDP l with
      | some (g1, g2) =>
        match pdToDatetime (g1 ++ (", ".data) ++ g2) with
        | some d => (some d, none)
        | none => (none, none)
      | none => (none, none)

/-! ## Helper lemmas -/

theorem hasPre_nil (l : List Char) : hasPre [] l = true := by
  cases l <;> rfl

theorem hasPre_append {p a : List Char} (b : List Char) (h : hasPre p a = true) :
    hasPre p (a ++ b) = true := by
  induction p generalizing a with
  | nil => exact hasPre_nil _
  | cons x xs ih =>
    cases a with
    | nil => simp [hasPre] at h
    | cons y ys =>
      simp only [hasPre, Bool.and_eq_true] at h ⊢
      exact ⟨h.1, ih h.2⟩

theorem subStr_of_hasPre {p l : List Char} (h : hasPre p l = true) :
    subStr p l = true := by
  cases l with
  | nil => simpa [subStr] using h
  | cons c cs => simp [subStr, h]

theorem subStr_append_right {p b : List Char} (a : List Char)
    (h : subStr p b = true) : subStr p (a ++ b) = true := by
  induction a with
  | nil => simpa using h
  | cons x xs ih => simp [subStr, ih]

theorem subStr_append_left {p a : List Char} (b : List Char)
    (h : subStr p a = true) : subStr p (a ++ b) = true := by
  induction a with
  | nil =>
    have hp : hasPre p [] = true := by simpa [subStr] using h
    cases p with
    | nil => exact subStr_of_hasPre (hasPre_nil _)
    | cons x xs => simp [hasPre] at hp
  | cons x xs ih =>
    simp only [subStr, Bool.or_eq_true] at h
    simp only [List.cons_append, subStr, Bool.or_eq_true]
    rcases h with h | h
    · exact Or.inl (hasPre_append _ h)
    · exact Or.inr (ih h)

theorem mem_ite_singleton {α : Type} {c : Prop} [Decidable c] {a x : α} :
    x ∈ (if c then [a] else ([] : List α)) ↔ c ∧ x = a := by
  split <;> simp_all

/-- Strings with different first characters are different. -/
theorem ne_of_pre {p : List Char} {s t : String} (hs : hasPre p s.data = true)
    (ht : hasPre p t.data = false) : s ≠ t := by
  intro e
  rw [e, ht] at hs
  exact Bool.noConfusion hs

/-- `s` starts with the character `c`. -/
def headIs (c : Char) (s : String) : Prop := ∃ rest, s.data = c :: rest

theorem ne_of_headIs {s t : String} {a b : Char} (hs : headIs a s)
    (ht : headIs b t) (hab : a ≠ b) : s ≠ t := by
  obtain ⟨r1, h1⟩ := hs
  obtain ⟨r2, h2⟩ := ht
  intro e
  rw [e, h2] at h1
  exact hab (List.cons.injEq .. ▸ h1).1.symm

theorem headIs_msgProv : headIs 'M' msgProv := ⟨_, rfl⟩

theorem headIs_msgMun : headIs 'M' msgMun := ⟨_, rfl⟩

theorem headIs_msgGrand : headIs 'M' msgGrand := ⟨_, rfl⟩

theorem headIs_msgYear (raw : String) : headIs 'O' (msgYear raw) := ⟨_, rfl⟩

theorem headIs_msgUnparseable (raw : String) (rem : Option String) :
    headIs 'U' (msgUnparseable raw rem) := by
  unfold msgUnparseable
  cases rem with
  | none => exact ⟨_, rfl⟩
  | some r =>
    dsimp only
    split
    · exact ⟨_, rfl⟩
    · exact ⟨_, rfl⟩

theorem headIs_msgPsgc (p m : String) : headIs 'P' (msgPsgc p m) := ⟨_, rfl⟩

theorem headIs_msgOrder (s e : PDate) : headIs 'D' (msgOrder s e) := by
  unfold msgOrder fmtDate
  split <;> split <;> exact ⟨_, rfl⟩

theorem headIs_msgArea (p t tot : Rat) : headIs 'A' (msgArea p t tot) := ⟨_, rfl⟩

theorem strIn_differ_msgDifferStr (y fb : Int) :
    strIn "differ" (msgDifferStr y fb) = true := by
  unfold strIn msgDifferStr
  simp only [String.data_append]
  exact subStr_append_left _ (subStr_append_left _ (subStr_append_right _ (by decide)))

theorem strIn_differ_msgDifferExcel (y fb : Int) :
    strIn "differ" (msgDifferExcel y fb) = true := by
  unfold strIn msgDifferExcel
  simp only [String.data_append]
  exact subStr_append_left _ (subStr_append_left _ (subStr_append_right _ (by decide)))

theorem strIn_differ_msgDifferRange (sy ey fb : Int) :
    strIn "differ" (msgDifferRange sy ey fb) = true := by
  unfold strIn msgDifferRange
  simp only [String.data_append]
  exact subStr_append_left _ (subStr_append_left _ (subStr_append_right _ (by decide)))

/-- Heads of the join: `pat` occurring at the front of an element occurs in
the joined string. -/
theorem strIn_joinSemi_of_mem {p : String} {a : String} {l : List String}
    (ha : a ∈ l) (hp : hasPre p.data a.data = true) :
    strIn p (joinSemi l) = true := by
  unfold strIn
  induction l with
  | nil => cases ha
  | cons b rest ih =>
    rcases List.mem_cons.1 ha with hab | hmem
    · cases rest with
      | nil => exact subStr_of_hasPre (hab ▸ hp)
      | cons c cs =>
        have hj : joinSemi (b :: c :: cs) = b ++ "; " ++ joinSemi (c :: cs) := rfl
        rw [hj]
        simp only [String.data_append]
        exact subStr_of_hasPre (hasPre_append _ (hasPre_append _ (hab ▸ hp)))
    · cases rest with
      | nil => cases hmem
      | cons c cs =>
        have hj : joinSemi (b :: c :: cs) = b ++ "; " ++ joinSemi (c :: cs) := rfl
        rw [hj]
        simp only [String.data_append, List.append_assoc]
        exact subStr_append_right _ (subStr_append_right _ (ih hmem))

theorem orderViolation_of_none {t : ParseTriple} (h : t.1 = none) :
    orderViolation t = [] := by
  unfold orderViolation
  rw [h]

theorem mem_orderViolation {x : String} {t : ParseTriple}
    (h : x ∈ orderViolation t) : ∃ s e, x = msgOrder s e := by
  unfold orderViolation at h
  rcases t1 : t.1 with _ | s <;> rcases t2 : t.2.1 with _ | e <;>
      rw [t1, t2] at h <;> try cases h
  rcases mem_ite_singleton.1 h with ⟨-, hx⟩
  exact ⟨s, e, hx⟩

/-! ## C5: the partitioner -/

/-- C5: the partitioner splits a validated batch exactly by the
`error_reason` field: a row lands in the clean set iff its `error_reason`
is empty and in the erroneous set iff it is non-empty, and every erroneous
row carries `source_row_number`, the 1-based sheet row position plus the
fixed header offset. -/
theorem c5_partition_by_error_reason (cfg : Bool) (rows : List (Nat × Row))
    (idx : Nat) (row : Row) :
    ((idx, row) ∈ (partitionRows cfg rows).1 ↔
      (idx, row) ∈ rows ∧ error_reason cfg row = "")
    ∧ (∀ srn : Nat, (idx, row, srn) ∈ (partitionRows cfg rows).2 ↔
        (idx, row) ∈ rows ∧ error_reason cfg row ≠ "" ∧ srn = sourceRowNumber idx)
    ∧ sourceRowNumber idx = (idx + 1) + headerOffset := by
  refine ⟨?_, fun srn => ?_, ?_⟩
  · simp [partitionRows, List.mem_filter]
  · constructor
    · intro h
      simp only [partitionRows, List.mem_map, List.mem_filter] at h
      obtain ⟨⟨i, r⟩, ⟨hmem, hne⟩, heq⟩ := h
      simp only [Prod.mk.injEq] at heq
      obtain ⟨h1, h2, h3⟩ := heq
      subst h1; subst h2
      exact ⟨hmem, by simpa using hne, h3.symm⟩
    · rintro ⟨hmem, hne, rfl⟩
      simp only [partitionRows, List.mem_map, List.mem_filter]
      exact ⟨(idx, row), ⟨hmem, by simpa using hne⟩, rfl⟩
  · simp [sourceRowNumber, headerOffset, Nat.add_assoc]

/-! ## C8: lookup de-duplication -/

theorem dropDupGo_filter_nil {k : String × String} {seen : List (String × String)}
    (l : List LookupRow) (hk : k ∈ seen) :
    (dropDupGo seen l).filter (fun r => lookupKey r == k) = [] := by
  induction l generalizing seen with
  | nil => rfl
  | cons r rest ih =>
    by_cases hr : lookupKey r ∈ seen
    · rw [dropDupGo, if_pos hr]
      exact ih hk
    · have hrk : (lookupKey r == k) = false := by
        rw [beq_eq_false_iff_ne]
        intro h
        exact hr (h ▸ hk)
      rw [dropDupGo, if_neg hr, List.filter_cons_of_neg (by simp [hrk])]
      exact ih (List.mem_cons_of_mem _ hk)

theorem dropDupGo_filter_le_one (k : String × String) (l : List LookupRow)
    (seen : List (String × String)) :
    ((dropDupGo seen l).filter (fun r => lookupKey r == k)).length ≤ 1 := by
  induction l generalizing seen with
  | nil => simp [dropDupGo]
  | cons r rest ih =>
    by_cases hr : lookupKey r ∈ seen
    · rw [dropDupGo, if_pos hr]
      exact ih seen
    · rw [dropDupGo, if_neg hr]
      by_cases hrk : lookupKey r = k
      · rw [List.filter_cons_of_pos (by simp [hrk]),
          dropDupGo_filter_nil rest (hrk ▸ List.mem_cons_self (lookupKey r) seen)]
        simp
      · rw [List.filter_cons_of_neg (by simp [hrk])]
        exact ih (lookupKey r :: seen)

/-- C8: before the admin-code lookup table is used for joins it is
de-duplicated so every `(province_name, municipality_name)` pair keeps at
most one entry, and for two rows sharing the name pair exactly the first
occurrence survives. -/
theorem c8_dedup_first_occurrence :
    (∀ (l : List LookupRow) (k : String × String),
        ((drop_duplicates l).filter (fun r => lookupKey r == k)).length ≤ 1)
    ∧ (∀ r1 r2 : LookupRow, lookupKey r1 = lookupKey r2 →
        drop_duplicates [r1, r2] = [r1]) := by
  constructor
  · intro l k
    exact dropDupGo_filter_le_one k l []
  · intro r1 r2 h
    simp [drop_duplicates, dropDupGo, List.contains_cons, h]

/-- Witness for C8 at the spec's key-reconciliation scenario: two lookup
rows with the same name pair and different codes collapse to the first. -/
theorem c8_dedup_first_occurrence_witness :
    drop_duplicates
        [⟨"ILOILO", "OTON", "063030000"⟩, ⟨"ILOILO", "OTON", "063031000"⟩]
      = [⟨"ILOILO", "OTON", "063030000"⟩] :=
  c8_dedup_first_occurrence.2 _ _ rfl

/-! ## C9: quarantine overwrite -/

/-- C9: the quarantine write is idempotent and replacing — after a write
the store holds exactly the written batch, writing the same batch twice
equals writing it once, and the result is independent of the prior
quarantine contents. -/
theorem c9_quarantine_write_idempotent_replacing :
    (∀ (α : Type) (p : Option (List α)) (b : List α),
        quarantine_write (quarantine_write p b) b = quarantine_write p b)
    ∧ (∀ (α : Type) (p q : Option (List α)) (b : List α),
        quarantine_write p b = quarantine_write q b)
    ∧ (∀ (α : Type) (p : Option (List α)) (b : List α),
        quarantine_write p b = some b) :=
  ⟨fun _ _ _ => rfl, fun _ _ _ _ => rfl, fun _ _ _ => rfl⟩

/-! ## C4: coercion-to-zero policy and the grand-total rule -/

/-- C4: numeric coercion never fails — a lone `-` and any unparseable cell
normalize to `0` — and the validator emits the grand-total violation for a
row exactly when its normalized `losses_php_grand_total` is `0`. -/
theorem c4_zero_coercion_and_grand_total :
    clean_numeric_cell "-" = 0
    ∧ (∀ s : String, parseNumFrom (cleanedCell s) = none → clean_numeric_cell s = 0)
    ∧ (∀ (cfg : Bool) (row : Row),
        msgGrand ∈ validateRow cfg row ↔ row.losses_php_grand_total = 0) := by
  refine ⟨by decide, fun s h => by simp [clean_numeric_cell, h], fun cfg row => ?_⟩
  constructor
  · intro h
    unfold validateRow reasons6 reasons5 reasons4 reasons3 reasons2 reasons1 at h
    simp only [List.append_assoc, List.mem_append, mem_ite_singleton] at h
    rcases h with ⟨_, he⟩ | ⟨_, he⟩ | ⟨_, he⟩ | ⟨_, he⟩ | ⟨hc, _⟩ | ⟨_, he⟩ | ho | ⟨_, he⟩
    · exact absurd he (by decide)
    · exact absurd he (by decide)
    · exact absurd he (ne_of_headIs headIs_msgGrand (headIs_msgYear _) (by decide))
    · exact absurd he (ne_of_headIs headIs_msgGrand (headIs_msgUnparseable _ _) (by decide))
    · exact hc
    · exact absurd he (ne_of_headIs headIs_msgGrand (headIs_msgPsgc _ _) (by decide))
    · obtain ⟨s, e, he⟩ := mem_orderViolation ho
      exact absurd he (ne_of_headIs headIs_msgGrand (headIs_msgOrder _ _) (by decide))
    · exact absurd he (ne_of_headIs headIs_msgGrand (headIs_msgArea _ _ _) (by decide))
  · intro h
    unfold validateRow reasons6 reasons5 reasons4 reasons3 reasons2 reasons1
    simp only [List.append_assoc, List.mem_append, mem_ite_singleton]
    exact Or.inr (Or.inr (Or.inr (Or.inr (Or.inl ⟨h, by simp⟩))))

/-- Witness for C4: the cell `"N/A"` is unparseable and coerces to `0`. -/
theorem c4_zero_coercion_and_grand_total_witness :
    clean_numeric_cell "N/A" = 0 :=
  c4_zero_coercion_and_grand_total.2.1 "N/A" (by decide)

/-! ## C6: normalized measures (corrected) -/

/-- C6 counterexample: the raw cell `"-5"` survives cleaning as an explicit
negative numeral, so the normalized measure is negative — the claimed
unconditional non-negativity fails. -/
theorem c6_counterexample : clean_numeric_cell "-5" < 0 := by decide

theorem parseUnsigned_nonneg {l : List Char} {q : Rat}
    (h : parseUnsigned l = some q) : 0 ≤ q := by
  simp only [parseUnsigned] at h
  split at h
  · split at h
    · cases h
    · obtain rfl := Option.some.inj h
      exact Nat.cast_nonneg _
  · split at h
    · obtain rfl := Option.some.inj h
      exact add_nonneg (Nat.cast_nonneg _)
        (div_nonneg (Nat.cast_nonneg _) (by positivity))
    · cases h
  · cases h

/-- C6 (amended): every normalized measure equals the decimal value parsed
from the cleaned cell with `0` substituted when the cell is unparseable;
it is non-negative unless the raw cell is an explicitly signed negative
numeral (so a negative measure can only be a faithfully parsed negative
input, never a coercion artifact). -/
theorem c6_measures_nonneg_unless_signed :
    (∀ s : String, parseNumFrom (cleanedCell s) = none → clean_numeric_cell s = 0)
    ∧ (∀ s : String, (cleanedCell s).head? ≠ some '-' → 0 ≤ clean_numeric_cell s)
    ∧ (∀ s : String, 0 ≤ clean_numeric_cell s ∨
        (clean_numeric_cell s < 0 ∧
          parseNumFrom (cleanedCell s) = some (clean_numeric_cell s))) := by
  refine ⟨fun s h => by simp [clean_numeric_cell, h], fun s h => ?_, fun s => ?_⟩
  · unfold clean_numeric_cell
    rcases hp : parseNumFrom (cleanedCell s) with _ | q
    · simp
    · simp only [Option.getD_some]
      rcases hc : cleanedCell s with _ | ⟨c, rest⟩
      · rw [hc] at hp
        cases hp
      · rw [hc] at hp h
        simp only [List.head?] at h
        have hp2 : (if c = '-' then (parseUnsigned rest).map Neg.neg
                    else if c = '+' then parseUnsigned rest
                    else parseUnsigned (c :: rest)) = some q := hp
        rw [if_neg (by simpa using h)] at hp2
        by_cases h2 : c = '+'
        · rw [if_pos h2] at hp2
          exact parseUnsigned_nonneg hp2
        · rw [if_neg h2] at hp2
          exact parseUnsigned_nonneg hp2
  · rcases hp : parseNumFrom (cleanedCell s) with _ | q
    · left
      simp [clean_numeric_cell, hp]
    · have hval : clean_numeric_cell s = q := by simp [clean_numeric_cell, hp]
      rcases le_or_lt 0 q with hq | hq
      · exact Or.inl (hval ▸ hq)
      · exact Or.inr ⟨hval ▸ hq, by rw [hval]⟩

/-- Witness for C6 (amended): an unparseable cell and a plain cell. -/
theorem c6_measures_nonneg_unless_signed_witness :
    clean_numeric_cell "xyz" = 0 ∧ 0 ≤ clean_numeric_cell "1,234.5" :=
  ⟨c6_measures_nonneg_unless_signed.1 "xyz" (by decide),
   c6_measures_nonneg_unless_signed.2.1 "1,234.5" (by decide)⟩

/-! ## C10: the unparseable-date and date-ordering violations exclude each
other -/

/-- C10: no row's violation list contains both an "Unparseable date"
violation and a "start after end" violation: the ordering rule runs only
when both parsed dates are present while the unparseable rule fires only
when the start date is absent, so the two reasons are mutually exclusive
on any single row. -/
theorem c10_unparseable_order_exclusive (cfg : Bool) (row : Row)
    (raw : String) (rem : Option String)
    (hu : msgUnparseable raw rem ∈ validateRow cfg row) :
    ∀ s e : PDate, msgOrder s e ∉ validateRow cfg row := by
  intro s e ho
  rcases hstart : (parseOf row).1 with _ | d
  · unfold validateRow reasons6 reasons5 reasons4 reasons3 reasons2 reasons1 at ho
    rw [orderViolation_of_none hstart] at ho
    simp only [List.append_assoc, List.append_nil, List.mem_append,
      mem_ite_singleton] at ho
    rcases ho with ⟨_, he⟩ | ⟨_, he⟩ | ⟨_, he⟩ | ⟨_, he⟩ | ⟨_, he⟩ | ⟨_, he⟩ | ⟨_, he⟩
    · exact absurd he (ne_of_headIs (headIs_msgOrder _ _) headIs_msgProv (by decide))
    · exact absurd he (ne_of_headIs (headIs_msgOrder _ _) headIs_msgMun (by decide))
    · exact absurd he (ne_of_headIs (headIs_msgOrder _ _) (headIs_msgYear _) (by decide))
    · exact absurd he
        (ne_of_headIs (headIs_msgOrder _ _) (headIs_msgUnparseable _ _) (by decide))
    · exact absurd he (ne_of_headIs (headIs_msgOrder _ _) headIs_msgGrand (by decide))
    · exact absurd he (ne_of_headIs (headIs_msgOrder _ _) (headIs_msgPsgc _ _) (by decide))
    · exact absurd he (ne_of_headIs (headIs_msgOrder _ _) (headIs_msgArea _ _ _) (by decide))
  · unfold validateRow reasons6 reasons5 reasons4 reasons3 reasons2 reasons1 at hu
    simp only [List.append_assoc, List.mem_append, mem_ite_singleton, hstart] at hu
    rcases hu with ⟨_, he⟩ | ⟨_, he⟩ | ⟨_, he⟩ | ⟨hc, _⟩ | ⟨_, he⟩ | ⟨_, he⟩ | hq | ⟨_, he⟩
    · exact absurd he (ne_of_headIs (headIs_msgUnparseable _ _) headIs_msgProv (by decide))
    · exact absurd he (ne_of_headIs (headIs_msgUnparseable _ _) headIs_msgMun (by decide))
    · exact absurd he
        (ne_of_headIs (headIs_msgUnparseable _ _) (headIs_msgYear _) (by decide))
    · exact Option.noConfusion hc
    · exact absurd he (ne_of_headIs (headIs_msgUnparseable _ _) headIs_msgGrand (by decide))
    · exact absurd he
        (ne_of_headIs (headIs_msgUnparseable _ _) (headIs_msgPsgc _ _) (by decide))
    · obtain ⟨s2, e2, he⟩ := mem_orderViolation hq
      exact absurd he
        (ne_of_headIs (headIs_msgUnparseable _ _) (headIs_msgOrder _ _) (by decide))
    · exact absurd he
        (ne_of_headIs (headIs_msgUnparseable _ _) (headIs_msgArea _ _ _) (by decide))

/-- A complete row whose date text is unparseable. -/
def c10row : Row :=
  { province := some "ILOILO", municipality := some "OTON",
    year_original := some 2020, year_raw := "2020",
    date_raw := "gibberish", date_cell := .text "gibberish",
    psgc_code := some "063022000",
    area_partially_damaged_ha := 0, area_totally_damaged_ha := 0,
    area_total_affected_ha := 0, losses_php_grand_total := 1000 }

/-- Witness for C10: a row flagged with an unparseable date carries no
date-ordering violation. -/
theorem c10_unparseable_order_exclusive_witness :
    msgOrder ⟨2020, 1, 2⟩ ⟨2020, 1, 1⟩ ∉ validateRow true c10row :=
  c10_unparseable_order_exclusive true c10row "gibberish"
    (some "Invalid start month name") (by decide) ⟨2020, 1, 2⟩ ⟨2020, 1, 1⟩

/-! ## C7: PSGC violation suppression (corrected) -/

/-- A row whose province and municipality are present and whose PSGC code
is absent, but whose raw year cell happens to contain the text
`"Missing essential field"` (so its year violation message contains that
substring). -/
def c7row : Row :=
  { province := some "ILOILO", municipality := some "OTON",
    year_original := none, year_raw := "Missing essential field",
    date_raw := "March 5, 2020", date_cell := .text "March 5, 2020",
    psgc_code := none,
    area_partially_damaged_ha := 0, area_totally_damaged_ha := 0,
    area_total_affected_ha := 0, losses_php_grand_total := 1000 }

/-- C7 counterexample: with the lookup configured, `c7row` has a present
province and municipality and an absent PSGC code, yet its violation list
contains no PSGC violation at all — the suppression test is a substring
check on the concatenated reasons, not a check of the province/municipality
flags, and the year message smuggles the substring in. -/
theorem c7_counterexample :
    fieldMissing c7row.province = false
    ∧ fieldMissing c7row.municipality = false
    ∧ c7row.psgc_code = none
    ∧ validateRow true c7row = [msgYear "Missing essential field"] := by
  refine ⟨rfl, rfl, rfl, ?_⟩
  decide

/-- C7 (amended): when the lookup is configured and the row's PSGC code is
absent, the PSGC violation is added iff the concatenation of the
previously collected violation messages does not contain the substring
`"Missing essential field"`; in particular a flagged-missing province or
municipality always suppresses it (but so does any other earlier message
that happens to contain that text). -/
theorem mem_reasons4_cases {x : String} {row : Row} (h : x ∈ reasons4 row) :
    x = msgProv ∨ x = msgMun ∨ (∃ raw, x = msgYear raw)
      ∨ (∃ raw rem, x = msgUnparseable raw rem) ∨ x = msgGrand := by
  unfold reasons4 reasons3 reasons2 reasons1 at h
  simp only [List.append_assoc, List.mem_append, mem_ite_singleton] at h
  rcases h with ⟨_, he⟩ | ⟨_, he⟩ | ⟨_, he⟩ | ⟨_, he⟩ | ⟨_, he⟩
  · exact Or.inl he
  · exact Or.inr (Or.inl he)
  · exact Or.inr (Or.inr (Or.inl ⟨_, he⟩))
  · exact Or.inr (Or.inr (Or.inr (Or.inl ⟨_, _, he⟩)))
  · exact Or.inr (Or.inr (Or.inr (Or.inr he)))

theorem c7_psgc_suppression (row : Row) (hpsgc : row.psgc_code = none) :
    (msgPsgc (psgcDisp row.province) (psgcDisp row.municipality) ∈ validateRow true row
      ↔ strIn "Missing essential field" (joinSemi (reasons4 row)) = false)
    ∧ ((fieldMissing row.province = true ∨ fieldMissing row.municipality = true) →
        strIn "Missing essential field" (joinSemi (reasons4 row)) = true) := by
  constructor
  · constructor
    · intro h
      unfold validateRow reasons6 reasons5 at h
      simp only [List.mem_append] at h
      rcases h with ((h4 | hpv) | ho) | hA
      · rcases mem_reasons4_cases h4 with he | he | ⟨raw, he⟩ | ⟨raw, rem, he⟩ | he
        · exact absurd he (ne_of_headIs (headIs_msgPsgc _ _) headIs_msgProv (by decide))
        · exact absurd he (ne_of_headIs (headIs_msgPsgc _ _) headIs_msgMun (by decide))
        · exact absurd he (ne_of_headIs (headIs_msgPsgc _ _) (headIs_msgYear _) (by decide))
        · exact absurd he
            (ne_of_headIs (headIs_msgPsgc _ _) (headIs_msgUnparseable _ _) (by decide))
        · exact absurd he (ne_of_headIs (headIs_msgPsgc _ _) headIs_msgGrand (by decide))
      · exact (mem_ite_singleton.1 hpv).1.2.2
      · obtain ⟨s2, e2, he⟩ := mem_orderViolation ho
        exact absurd he (ne_of_headIs (headIs_msgPsgc _ _) (headIs_msgOrder _ _) (by decide))
      · obtain ⟨_, he⟩ := mem_ite_singleton.1 hA
        exact absurd he (ne_of_headIs (headIs_msgPsgc _ _) (headIs_msgArea _ _ _) (by decide))
    · intro h
      unfold validateRow reasons6 reasons5
      simp only [List.mem_append]
      refine Or.inl (Or.inl (Or.inr ?_))
      rw [mem_ite_singleton]
      exact ⟨⟨hpsgc, trivial, h⟩, rfl⟩
  · rintro (hp | hm)
    · refine strIn_joinSemi_of_mem (a := msgProv) ?_ (by decide)
      unfold reasons4 reasons3 reasons2 reasons1
      simp only [List.append_assoc, List.mem_append]
      refine Or.inl ?_
      rw [mem_ite_singleton]
      exact ⟨hp, rfl⟩
    · refine strIn_joinSemi_of_mem (a := msgMun) ?_ (by decide)
      unfold reasons4 reasons3 reasons2 reasons1
      simp only [List.append_assoc, List.mem_append]
      refine Or.inr (Or.inl ?_)
      rw [mem_ite_singleton]
      exact ⟨hm, rfl⟩

/-- A well-formed row (valid year, parseable date, non-zero grand total)
whose PSGC code is absent. -/
def c7wrow : Row :=
  { province := some "ILOILO", municipality := some "OTON",
    year_original := some 2020, year_raw := "2020",
    date_raw := "March 5, 2020", date_cell := .text "March 5, 2020",
    psgc_code := none,
    area_partially_damaged_ha := 0, area_totally_damaged_ha := 0,
    area_total_affected_ha := 0, losses_php_grand_total := 1000 }

/-- Witness for C7 (amended): a fully populated row with an absent PSGC
code receives the PSGC violation. -/
theorem c7_psgc_suppression_witness :
    msgPsgc (psgcDisp c7wrow.province) (psgcDisp c7wrow.municipality)
      ∈ validateRow true c7wrow :=
  (c7_psgc_suppression c7wrow rfl).1.mpr (by decide)

/-! ## C3: both dates or neither (corrected) -/

/-- Both dates present or neither. -/
def bon (t : ParseTriple) : Prop :=
  (t.1 = none ∧ t.2.1 = none) ∨ ∃ a b, t.1 = some a ∧ t.2.1 = some b

theorem bon_parseNative (d : PDate) (fb : Option Int) : bon (parseNative d fb) := by
  unfold parseNative
  repeat' split
  all_goals first
    | exact Or.inl ⟨rfl, rfl⟩
    | exact Or.inr ⟨_, _, rfl, rfl⟩

theorem bon_p1Finish (s e : PDate) (rem : String) (y : Nat) (fb : Option Int) :
    bon (p1Finish s e rem y fb) := by
  unfold p1Finish
  repeat' split
  all_goals first
    | exact Or.inl ⟨rfl, rfl⟩
    | exact Or.inr ⟨_, _, rfl, rfl⟩

theorem bon_p1Build (w d1 : List Char) (d2 : Option (List Char)) (y : Nat)
    (fb : Option Int) : bon (p1Build w d1 d2 y fb) := by
  unfold p1Build
  repeat' split
  all_goals first
    | exact Or.inl ⟨rfl, rfl⟩
    | apply bon_p1Finish

theorem bon_p2Build (w1 w2 : List Char) (y : Nat) (fb : Option Int) :
    bon (p2Build w1 w2 y fb) := by
  unfold p2Build p2Dates
  repeat' split
  all_goals first
    | exact Or.inl ⟨rfl, rfl⟩
    | exact Or.inr ⟨_, _, rfl, rfl⟩

theorem bon_p3Build (w : List Char) (y : Nat) (fb : Option Int) :
    bon (p3Build w y fb) := by
  unfold p3Build p3Dates
  repeat' split
  all_goals first
    | exact Or.inl ⟨rfl, rfl⟩
    | exact Or.inr ⟨_, _, rfl, rfl⟩

theorem bon_isoBuild (d : PDate) (fb : Option Int) : bon (isoBuild d fb) := by
  unfold isoBuild
  repeat' split
  all_goals first
    | exact Or.inl ⟨rfl, rfl⟩
    | exact Or.inr ⟨_, _, rfl, rfl⟩

theorem bon_fbFinish (s e : PDate) (remarks : List String) (f : Int) :
    bon (fbFinish s e remarks f) := by
  unfold fbFinish
  split
  · exact Or.inl ⟨rfl, rfl⟩
  · exact Or.inr ⟨_, _, rfl, rfl⟩

theorem bon_fbEnd (startD : PDate) (remarks : List String) (startClean : List Char)
    (nParts : Nat) (endStr : List Char) (f : Int) :
    bon (fbEnd startD remarks startClean nParts endStr f) := by
  unfold fbEnd
  dsimp only
  repeat' split
  all_goals first
    | exact Or.inl ⟨rfl, rfl⟩
    | apply bon_fbFinish

theorem bon_fallbackCore (parts : List (List Char)) (f : Int) :
    bon (fallbackCore parts f) := by
  unfold fallbackCore
  dsimp only
  repeat' split
  all_goals first
    | exact Or.inl ⟨rfl, rfl⟩
    | apply bon_fbEnd

theorem bon_isoFall (l : List Char) (fb : Option Int) : bon (isoFall l fb) := by
  unfold isoFall
  repeat' split
  all_goals first
    | exact Or.inl ⟨rfl, rfl⟩
    | apply bon_isoBuild
    | apply bon_fallbackCore

theorem bon_parse_date_range_smart (cell : DateCell) (fb : Option Int) :
    bon (parse_date_range_smart cell fb) := by
  unfold parse_date_range_smart
  dsimp only
  repeat' split
  all_goals first
    | exact Or.inl ⟨rfl, rfl⟩
    | apply bon_parseNative
    | apply bon_p1Build
    | apply bon_p2Build
    | apply bon_p3Build
    | apply bon_isoFall

/-- C3 counterexample: the quarantine-loop parser `parse_date_range` of
`process_error_rows.py` returns a present start date with an absent end
date on the fallback path that extracts only the first recognizable date
part (its own comment: "Cannot reliably get end date"). -/
theorem c3_counterexample :
    parse_date_range (.text "July 16- August 11, 2025")
      = (some ⟨2025, 7, 16⟩, none) := by decide

/-- C3 (amended): `parse_date_range_smart` — the date parser of the main
sanitation pipeline — always returns both dates or neither; but the
quarantine-loop parser `parse_date_range` violates the invariant: its
partial-extraction fallback returns `(start, NaT)`. -/
theorem c3_both_or_neither :
    (∀ (cell : DateCell) (fb : Option Int), bon (parse_date_range_smart cell fb))
    ∧ parse_date_range (.text "July 16- August 11, 2025")
        = (some ⟨2025, 7, 16⟩, none) :=
  ⟨bon_parse_date_range_smart, by decide⟩

/-! ## C2: the ±1-year sanity bound -/

theorem mkDate_some_eq {y : Int} {m d : Nat} {dt : PDate}
    (h : mkDate y m d = some dt) : dt = ⟨y, m, d⟩ := by
  unfold mkDate at h
  split at h
  · exact (Option.some.inj h).symm
  · cases h

theorem yearsDiffer_eq_false {y f : Int} (h : ¬ yearsDiffer y f = true) :
    (y - f).natAbs ≤ 1 := by
  simpa [yearsDiffer] using h

theorem yb_parseNative {d : PDate} {f : Int} {s e : PDate} {r : Option String}
    (h : parseNative d (some f) = (some s, some e, r)) :
    s = d ∧ e = d ∧ (d.year - f).natAbs ≤ 1 := by
  unfold parseNative at h
  dsimp only at h
  split at h
  · simp at h
  · rename_i hdif
    simp only [Prod.mk.injEq, Option.some.injEq] at h
    exact ⟨h.1.symm, h.2.1.symm, yearsDiffer_eq_false hdif⟩

theorem yb_p1Finish {s0 e0 : PDate} {rem : String} {y : Nat} {f : Int}
    {s e : PDate} {r : Option String}
    (h : p1Finish s0 e0 rem y (some f) = (some s, some e, r)) :
    s = s0 ∧ e = e0 ∧ (((y : Int)) - f).natAbs ≤ 1 := by
  unfold p1Finish at h
  dsimp only at h
  split at h
  · simp at h
  · rename_i hdif
    simp only [Prod.mk.injEq, Option.some.injEq] at h
    exact ⟨h.1.symm, h.2.1.symm, yearsDiffer_eq_false hdif⟩

theorem yb_p1Build {w d1 : List Char} {d2 : Option (List Char)} {y : Nat}
    {f : Int} {s e : PDate} {r : Option String}
    (h : p1Build w d1 d2 y (some f) = (some s, some e, r)) :
    s.year = (y : Int) ∧ e.year = (y : Int) ∧ (((y : Int)) - f).natAbs ≤ 1 := by
  unfold p1Build at h
  split at h
  · simp at h
  · split at h
    · simp at h
    · split at h
      · simp at h
      · rename_i start hstart
        split at h
        · split at h
          · simp at h
          · rename_i en hen
            obtain ⟨rfl, rfl, hb⟩ := yb_p1Finish h
            rw [mkDate_some_eq hstart, mkDate_some_eq hen]
            exact ⟨rfl, rfl, hb⟩
        · obtain ⟨rfl, rfl, hb⟩ := yb_p1Finish h
          rw [mkDate_some_eq hstart]
          exact ⟨rfl, rfl, hb⟩

theorem yb_p2Build {w1 w2 : List Char} {y : Nat} {f : Int}
    {s e : PDate} {r : Option String}
    (h : p2Build w1 w2 y (some f) = (some s, some e, r)) :
    s.year = (y : Int) ∧ e.year = (y : Int) ∧ (((y : Int)) - f).natAbs ≤ 1 := by
  unfold p2Build at h
  dsimp only at h
  split at h
  · simp at h
  · rename_i hdif
    unfold p2Dates at h
    split at h
    · simp at h
    · split at h
      · simp at h
      · simp only [Prod.mk.injEq, Option.some.injEq] at h
        refine ⟨?_, ?_, yearsDiffer_eq_false hdif⟩
        · rw [← h.1]
        · rw [← h.2.1]

theorem yb_p3Build {w : List Char} {y : Nat} {f : Int}
    {s e : PDate} {r : Option String}
    (h : p3Build w y (some f) = (some s, some e, r)) :
    s.year = (y : Int) ∧ e.year = (y : Int) ∧ (((y : Int)) - f).natAbs ≤ 1 := by
  unfold p3Build at h
  dsimp only at h
  split at h
  · simp at h
  · rename_i hdif
    unfold p3Dates at h
    split at h
    · simp at h
    · simp only [Prod.mk.injEq, Option.some.injEq] at h
      refine ⟨?_, ?_, yearsDiffer_eq_false hdif⟩
      · rw [← h.1]
      · rw [← h.2.1]

theorem yb_isoBuild {d : PDate} {f : Int} {s e : PDate} {r : Option String}
    (h : isoBuild d (some f) = (some s, some e, r)) :
    s = d ∧ e = d ∧ (d.year - f).natAbs ≤ 1 := by
  unfold isoBuild at h
  dsimp only at h
  split at h
  · simp at h
  · rename_i hdif
    simp only [Prod.mk.injEq, Option.some.injEq] at h
    exact ⟨h.1.symm, h.2.1.symm, yearsDiffer_eq_false hdif⟩

theorem yb_fbFinish {s0 e0 : PDate} {remarks : List String} {f : Int}
    {s e : PDate} {r : Option String}
    (h : fbFinish s0 e0 remarks f = (some s, some e, r)) :
    s = s0 ∧ e = e0 ∧ (s0.year - f).natAbs ≤ 1 ∧ (e0.year - f).natAbs ≤ 1 := by
  unfold fbFinish at h
  split at h
  · simp at h
  · rename_i hdif
    push_neg at hdif
    simp only [Prod.mk.injEq, Option.some.injEq] at h
    exact ⟨h.1.symm, h.2.1.symm, Nat.le_of_lt_succ (Nat.lt_succ_of_le hdif.1),
      Nat.le_of_lt_succ (Nat.lt_succ_of_le hdif.2)⟩

theorem yb_fbEnd {startD : PDate} {remarks : List String} {startClean : List Char}
    {nParts : Nat} {endStr : List Char} {f : Int} {s e : PDate} {r : Option String}
    (h : fbEnd startD remarks startClean nParts endStr f = (some s, some e, r)) :
    (s.year - f).natAbs ≤ 1 ∧ (e.year - f).natAbs ≤ 1 := by
  unfold fbEnd at h
  dsimp only at h
  split at h
  · obtain ⟨rfl, rfl, hb1, hb2⟩ := yb_fbFinish h
    exact ⟨hb1, hb2⟩
  · split at h
    · split at h
      · simp at h
      · split at h
        · simp at h
        · obtain ⟨rfl, rfl, hb1, hb2⟩ := yb_fbFinish h
          exact ⟨hb1, hb2⟩
    · split at h
      · obtain ⟨rfl, rfl, hb1, hb2⟩ := yb_fbFinish h
        exact ⟨hb1, hb2⟩
      · split at h
        · obtain ⟨rfl, rfl, hb1, hb2⟩ := yb_fbFinish h
          exact ⟨hb1, hb2⟩
        · simp at h

theorem yb_fallbackCore {parts : List (List Char)} {f : Int}
    {s e : PDate} {r : Option String}
    (h : fallbackCore parts f = (some s, some e, r)) :
    (s.year - f).natAbs ≤ 1 ∧ (e.year - f).natAbs ≤ 1 := by
  unfold fallbackCore at h
  dsimp only at h
  split at h
  · exact yb_fbEnd h
  · split at h
    · exact yb_fbEnd h
    · simp at h

theorem yb_isoFall {l : List Char} {f : Int} {s e : PDate} {r : Option String}
    (h : isoFall l (some f) = (some s, some e, r)) :
    (s.year - f).natAbs ≤ 1 ∧ (e.year - f).natAbs ≤ 1 := by
  unfold isoFall at h
  split at h
  · obtain ⟨rfl, rfl, hb⟩ := yb_isoBuild h
    exact ⟨hb, hb⟩
  · exact yb_fallbackCore h

theorem yb_parse {cell : DateCell} {f : Int} {s e : PDate} {r : Option String}
    (h : parse_date_range_smart cell (some f) = (some s, some e, r)) :
    (s.year - f).natAbs ≤ 1 ∧ (e.year - f).natAbs ≤ 1 := by
  rcases cell with _ | d | str
  · simp [parse_date_range_smart] at h
  · obtain ⟨rfl, rfl, hb⟩ := yb_parseNative h
    exact ⟨hb, hb⟩
  · unfold parse_date_range_smart at h
    dsimp only at h
    split at h
    · obtain ⟨h1, h2, hb⟩ := yb_p1Build h
      rw [h1, h2]
      exact ⟨hb, hb⟩
    · split at h
      · obtain ⟨h1, h2, hb⟩ := yb_p2Build h
        rw [h1, h2]
        exact ⟨hb, hb⟩
      · split at h
        · split at h
          · obtain ⟨h1, h2, hb⟩ := yb_p3Build h
            rw [h1, h2]
            exact ⟨hb, hb⟩
          · exact yb_isoFall h
        · exact yb_isoFall h

theorem parseNative_rel {d : PDate} {s e : PDate} {r : String}
    (h : parseNative d none = (some s, some e, some r)) (f : Int) :
    s.year = d.year ∧
    parseNative d (some f) =
      (if 1 < (d.year - f).natAbs then (none, none, some (msgDifferExcel d.year f))
       else (some s, some e, some r)) := by
  unfold parseNative at h ⊢
  dsimp only at h ⊢
  simp only [Prod.mk.injEq, Option.some.injEq] at h
  obtain ⟨h1, h2, h3⟩ := h
  subst h1; subst h2; subst h3
  refine ⟨rfl, ?_⟩
  by_cases hd : 1 < (d.year - f).natAbs
  · rw [if_pos hd]
    simp [yearsDiffer, hd]
  · rw [if_neg hd]
    simp [yearsDiffer, hd]

theorem p1Finish_rel {s0 e0 : PDate} {rem : String} {y : Nat}
    {s e : PDate} {r : String}
    (h : p1Finish s0 e0 rem y none = (some s, some e, some r)) (f : Int) :
    p1Finish s0 e0 rem y (some f) =
      (if 1 < ((y : Int) - f).natAbs then (none, none, some (msgDifferStr y f))
       else (some s, some e, some r)) := by
  unfold p1Finish at h ⊢
  dsimp only at h ⊢
  simp only [Prod.mk.injEq, Option.some.injEq] at h
  obtain ⟨h1, h2, h3⟩ := h
  subst h1; subst h2; subst h3
  by_cases hd : 1 < ((y : Int) - f).natAbs
  · rw [if_pos hd]
    simp [yearsDiffer, hd]
  · rw [if_neg hd]
    simp [yearsDiffer, hd]

theorem p1Build_rel {w d1 : List Char} {d2 : Option (List Char)} {y : Nat}
    {s e : PDate} {r : String}
    (h : p1Build w d1 d2 y none = (some s, some e, some r)) (f : Int) :
    s.year = (y : Int) ∧
    p1Build w d1 d2 y (some f) =
      (if 1 < ((y : Int) - f).natAbs then (none, none, some (msgDifferStr y f))
       else (some s, some e, some r)) := by
  unfold p1Build at h ⊢
  split at h
  · simp at h
  · rename_i m hm
    split at h
    · simp at h
    · rename_i dv hdv
      split at h
      · simp at h
      · rename_i start hstart
        split at h
        · rename_i dd2
          split at h
          · simp at h
          · rename_i en hen
            refine ⟨?_, p1Finish_rel h f⟩
            have h2 : ((some start : Option PDate), (some en : Option PDate),
                (some "Parsed from 'Month Day-Day, Year' format." : Option String))
                = (some s, some e, some r) := h
            simp only [Prod.mk.injEq, Option.some.injEq] at h2
            rw [← h2.1, mkDate_some_eq hstart]
        · refine ⟨?_, p1Finish_rel h f⟩
          have h2 : ((some start : Option PDate), (some start : Option PDate),
              (some "Parsed as a single day event." : Option String))
              = (some s, some e, some r) := h
          simp only [Prod.mk.injEq, Option.some.injEq] at h2
          rw [← h2.1, mkDate_some_eq hstart]

theorem p2Dates_year {w1 w2 : List Char} {y : Nat} {s e : PDate} {r : Option String}
    (h : p2Dates w1 w2 y = (some s, some e, r)) : s.year = (y : Int) := by
  unfold p2Dates at h
  split at h
  · simp at h
  · split at h
    · simp at h
    · simp only [Prod.mk.injEq, Option.some.injEq] at h
      rw [← h.1]

theorem p2Build_rel {w1 w2 : List Char} {y : Nat} {s e : PDate} {r : String}
    (h : p2Build w1 w2 y none = (some s, some e, some r)) (f : Int) :
    s.year = (y : Int) ∧
    p2Build w1 w2 y (some f) =
      (if 1 < ((y : Int) - f).natAbs then (none, none, some (msgDifferStr y f))
       else (some s, some e, some r)) := by
  have h0 : p2Dates w1 w2 y = (some s, some e, some r) := h
  refine ⟨p2Dates_year h0, ?_⟩
  unfold p2Build
  dsimp only
  by_cases hd : 1 < ((y : Int) - f).natAbs
  · rw [if_pos hd]
    simp [yearsDiffer, hd]
  · rw [if_neg hd]
    simp [yearsDiffer, hd, h0]

theorem p3Dates_year {w : List Char} {y : Nat} {s e : PDate} {r : Option String}
    (h : p3Dates w y = (some s, some e, r)) : s.year = (y : Int) := by
  unfold p3Dates at h
  split at h
  · simp at h
  · simp only [Prod.mk.injEq, Option.some.injEq] at h
    rw [← h.1]

theorem p3Build_rel {w : List Char} {y : Nat} {s e : PDate} {r : String}
    (h : p3Build w y none = (some s, some e, some r)) (f : Int) :
    s.year = (y : Int) ∧
    p3Build w y (some f) =
      (if 1 < ((y : Int) - f).natAbs then (none, none, some (msgDifferStr y f))
       else (some s, some e, some r)) := by
  have h0 : p3Dates w y = (some s, some e, some r) := h
  refine ⟨p3Dates_year h0, ?_⟩
  unfold p3Build
  dsimp only
  by_cases hd : 1 < ((y : Int) - f).natAbs
  · rw [if_pos hd]
    simp [yearsDiffer, hd]
  · rw [if_neg hd]
    simp [yearsDiffer, hd, h0]

theorem isoBuild_rel {d : PDate} {s e : PDate} {r : String}
    (h : isoBuild d none = (some s, some e, some r)) (f : Int) :
    s = d ∧
    isoBuild d (some f) =
      (if 1 < (d.year - f).natAbs then (none, none, some (msgDifferStr d.year f))
       else (some s, some e, some r)) := by
  unfold isoBuild at h ⊢
  dsimp only at h ⊢
  simp only [Prod.mk.injEq, Option.some.injEq] at h
  obtain ⟨h1, h2, h3⟩ := h
  subst h1; subst h2; subst h3
  refine ⟨rfl, ?_⟩
  by_cases hd : 1 < (d.year - f).natAbs
  · rw [if_pos hd]
    simp [yearsDiffer, hd]
  · rw [if_neg hd]
    simp [yearsDiffer, hd]

theorem isoFall_rel {l : List Char} {s e : PDate} {r : String}
    (h : isoFall l none = (some s, some e, some r)) (f : Int) :
    isoFall l (some f) =
      (if 1 < (s.year - f).natAbs then (none, none, some (msgDifferStr s.year f))
       else (some s, some e, some r)) := by
  unfold isoFall at h ⊢
  split at h
  · rename_i d hiso
    obtain ⟨rfl, heq⟩ := isoBuild_rel h f
    exact heq
  · simp at h

theorem parse_rel {cell : DateCell} {s e : PDate} {r : String}
    (h : parse_date_range_smart cell none = (some s, some e, some r)) (f : Int) :
    (1 < (s.year - f).natAbs →
      ∃ reason, parse_date_range_smart cell (some f) = (none, none, some reason)
        ∧ strIn "differ" reason = true)
    ∧ ((s.year - f).natAbs ≤ 1 →
        parse_date_range_smart cell (some f) = (some s, some e, some r)) := by
  rcases cell with _ | d | str
  · simp [parse_date_range_smart] at h
  · obtain ⟨hy, heq⟩ :=
      parseNative_rel (show parseNative d none = (some s, some e, some r) from h) f
    constructor
    · intro hgt
      refine ⟨msgDifferExcel d.year f, ?_, strIn_differ_msgDifferExcel d.year f⟩
      show parseNative d (some f) = _
      rw [heq, if_pos (hy ▸ hgt)]
    · intro hle
      show parseNative d (some f) = _
      rw [heq, if_neg (by rw [← hy]; exact Nat.not_lt.mpr hle)]
  · unfold parse_date_range_smart at h ⊢
    dsimp only at h ⊢
    split at h
    · rename_i w d1 d2 y hp1
      obtain ⟨hy, heq⟩ := p1Build_rel h f
      constructor
      · intro hgt
        refine ⟨msgDifferStr (y : Int) f, ?_, strIn_differ_msgDifferStr _ _⟩
        rw [heq, if_pos (by rw [← hy]; exact hgt)]
      · intro hle
        rw [heq, if_neg (by rw [← hy]; exact Nat.not_lt.mpr hle)]
    · split at h
      · rename_i w1 w2 y hp2
        obtain ⟨hy, heq⟩ := p2Build_rel h f
        constructor
        · intro hgt
          refine ⟨msgDifferStr (y : Int) f, ?_, strIn_differ_msgDifferStr _ _⟩
          rw [heq, if_pos (by rw [← hy]; exact hgt)]
        · intro hle
          rw [heq, if_neg (by rw [← hy]; exact Nat.not_lt.mpr hle)]
      · split at h
        · rename_i w y hp3
          split at h
          · rename_i hcond
            rw [if_pos hcond]
            obtain ⟨hy, heq⟩ := p3Build_rel h f
            constructor
            · intro hgt
              refine ⟨msgDifferStr (y : Int) f, ?_, strIn_differ_msgDifferStr _ _⟩
              rw [heq, if_pos (by rw [← hy]; exact hgt)]
            · intro hle
              rw [heq, if_neg (by rw [← hy]; exact Nat.not_lt.mpr hle)]
          · rename_i hcond
            rw [if_neg hcond]
            constructor
            · intro hgt
              refine ⟨msgDifferStr s.year f, ?_, strIn_differ_msgDifferStr _ _⟩
              rw [isoFall_rel h f, if_pos hgt]
            · intro hle
              rw [isoFall_rel h f, if_neg (Nat.not_lt.mpr hle)]
        · constructor
          · intro hgt
            refine ⟨msgDifferStr s.year f, ?_, strIn_differ_msgDifferStr _ _⟩
            rw [isoFall_rel h f, if_pos hgt]
          · intro hle
            rw [isoFall_rel h f, if_neg (Nat.not_lt.mpr hle)]

/-- C2: the ±1-year cross-check.  (i) Whenever the parser returns dates
against a present year hint, both result years are within ±1 of the hint —
a mismatched year never yields dates.  (ii)/(iii) For any date text whose
own content determines the dates (a hint-free parse succeeds), parsing
with a hint more than one year away from the text's year fails with a
reason containing "differ", while a hint within one year never makes the
check fail (the result is unchanged). -/
theorem c2_year_mismatch_check :
    (∀ (cell : DateCell) (f : Int) (s e : PDate) (r : Option String),
        parse_date_range_smart cell (some f) = (some s, some e, r) →
          (s.year - f).natAbs ≤ 1 ∧ (e.year - f).natAbs ≤ 1)
    ∧ (∀ (cell : DateCell) (s e : PDate) (r : String) (f : Int),
        parse_date_range_smart cell none = (some s, some e, some r) →
          (1 < (s.year - f).natAbs →
            ∃ reason, parse_date_range_smart cell (some f) = (none, none, some reason)
              ∧ strIn "differ" reason = true)
          ∧ ((s.year - f).natAbs ≤ 1 →
              parse_date_range_smart cell (some f) = (some s, some e, some r))) :=
  ⟨fun _ _ _ _ _ h => yb_parse h, fun _ _ _ _ f h => parse_rel h f⟩

/-- Witness for C2: `"March 5, 2020"` parses on its own to 2020-03-05;
against the hint 2050 the parse fails with a "differs significantly"
reason, and against the hint 2021 it succeeds unchanged. -/
theorem c2_year_mismatch_check_witness :
    (∃ reason,
        parse_date_range_smart (.text "March 5, 2020") (some 2050)
          = (none, none, some reason) ∧ strIn "differ" reason = true)
    ∧ parse_date_range_smart (.text "March 5, 2020") (some 2021)
        = (some ⟨2020, 3, 5⟩, some ⟨2020, 3, 5⟩, some "Parsed as a single day event.") :=
  ⟨((c2_year_mismatch_check.2 (.text "March 5, 2020") ⟨2020, 3, 5⟩ ⟨2020, 3, 5⟩
      "Parsed as a single day event." 2050 (by decide)).1 (by decide)),
   ((c2_year_mismatch_check.2 (.text "March 5, 2020") ⟨2020, 3, 5⟩ ⟨2020, 3, 5⟩
      "Parsed as a single day event." 2021 (by decide)).2 (by decide))⟩

/-! ## C1: result ordering (corrected) -/

theorem one_le_daysInMonth (y : Int) (m : Nat) : 1 ≤ daysInMonth y m := by
  unfold daysInMonth
  repeat' split
  all_goals omega

theorem dateLe_refl (d : PDate) : dateLe d d :=
  Or.inr ⟨rfl, Or.inr ⟨rfl, le_refl _⟩⟩

theorem p1Finish_success_eq {s0 e0 : PDate} {rem : String} {y : Nat}
    {fb : Option Int} {s e : PDate} {r : Option String}
    (h : p1Finish s0 e0 rem y fb = (some s, some e, r)) : s = s0 ∧ e = e0 := by
  unfold p1Finish at h
  rcases fb with _ | f <;> dsimp only at h
  · simp only [Prod.mk.injEq, Option.some.injEq] at h
    exact ⟨h.1.symm, h.2.1.symm⟩
  · split at h
    · simp at h
    · simp only [Prod.mk.injEq, Option.some.injEq] at h
      exact ⟨h.1.symm, h.2.1.symm⟩

theorem ord_p1Build {w d1 : List Char} {d2 : Option (List Char)} {y : Nat}
    {fb : Option Int} {s e : PDate} {r : Option String}
    (h : p1Build w d1 d2 y fb = (some s, some e, r)) :
    s.year = e.year ∧ s.month = e.month ∧ (dateLe s e ∨ e.day < s.day) := by
  unfold p1Build at h
  split at h
  · simp at h
  · rename_i m hm
    split at h
    · simp at h
    · rename_i dv hdv
      split at h
      · simp at h
      · rename_i start hstart
        split at h
        · rename_i dd2
          split at h
          · simp at h
          · rename_i en hen
            obtain ⟨rfl, rfl⟩ := p1Finish_success_eq h
            rw [mkDate_some_eq hstart, mkDate_some_eq hen]
            refine ⟨rfl, rfl, ?_⟩
            rcases le_or_lt dv (digitsToNat dd2) with hle | hlt
            · exact Or.inl (Or.inr ⟨rfl, Or.inr ⟨rfl, hle⟩⟩)
            · exact Or.inr hlt
        · obtain ⟨rfl, rfl⟩ := p1Finish_success_eq h
          exact ⟨rfl, rfl, Or.inl (dateLe_refl _)⟩

theorem ord_p2Build {w1 w2 : List Char} {y : Nat} {fb : Option Int}
    {s e : PDate} {r : Option String}
    (h : p2Build w1 w2 y fb = (some s, some e, r)) :
    s.year = e.year ∧ s.day = 1 ∧ (dateLe s e ∨ e.month < s.month) := by
  have h0 : p2Dates w1 w2 y = (some s, some e, r) := by
    unfold p2Build at h
    rcases fb with _ | f <;> dsimp only at h
    · exact h
    · split at h
      · simp at h
      · exact h
  unfold p2Dates at h0
  split at h0
  · simp at h0
  · rename_i m1 hm1
    split at h0
    · simp at h0
    · rename_i m2 hm2
      simp only [Prod.mk.injEq, Option.some.injEq] at h0
      obtain ⟨h1, h2, -⟩ := h0
      subst h1; subst h2
      refine ⟨rfl, rfl, ?_⟩
      rcases Nat.lt_trichotomy m1 m2 with hlt | heqm | hgt
      · exact Or.inl (Or.inr ⟨rfl, Or.inl hlt⟩)
      · subst heqm
        exact Or.inl (Or.inr ⟨rfl, Or.inr ⟨rfl, one_le_daysInMonth _ _⟩⟩)
      · exact Or.inr hgt

theorem ord_p3Build {w : List Char} {y : Nat} {fb : Option Int}
    {s e : PDate} {r : Option String}
    (h : p3Build w y fb = (some s, some e, r)) : dateLe s e := by
  have h0 : p3Dates w y = (some s, some e, r) := by
    unfold p3Build at h
    rcases fb with _ | f <;> dsimp only at h
    · exact h
    · split at h
      · simp at h
      · exact h
  unfold p3Dates at h0
  split at h0
  · simp at h0
  · simp only [Prod.mk.injEq, Option.some.injEq] at h0
    obtain ⟨h1, h2, -⟩ := h0
    subst h1; subst h2
    exact Or.inr ⟨rfl, Or.inr ⟨rfl, one_le_daysInMonth _ _⟩⟩

theorem ord_isoBuild {d : PDate} {fb : Option Int} {s e : PDate}
    {r : Option String} (h : isoBuild d fb = (some s, some e, r)) : s = e := by
  unfold isoBuild at h
  rcases fb with _ | f <;> dsimp only at h
  · simp only [Prod.mk.injEq, Option.some.injEq] at h
    rw [← h.1, ← h.2.1]
  · split at h
    · simp at h
    · simp only [Prod.mk.injEq, Option.some.injEq] at h
      rw [← h.1, ← h.2.1]

theorem str_append_ne_empty {a : String} (b : String) (ha : a ≠ "") :
    a ++ b ≠ "" := by
  intro h
  apply ha
  have h2 := congrArg String.data h
  rw [String.data_append] at h2
  exact String.ext (List.append_eq_nil.1 (by simpa using h2)).1

theorem joinSep_space_ne_empty {l : List String} (hne : l ≠ [])
    (hall : ∀ x ∈ l, x ≠ "") : joinSep " " l ≠ "" := by
  cases l with
  | nil => exact absurd rfl hne
  | cons a rest =>
    cases rest with
    | nil => exact hall a (by simp)
    | cons b bs =>
      show a ++ " " ++ joinSep " " (b :: bs) ≠ ""
      exact str_append_ne_empty _ (str_append_ne_empty _ (hall a (by simp)))

theorem rne_fbFinish {s0 e0 : PDate} {remarks : List String} {f : Int}
    {s e : PDate} {r : String} (hall : ∀ x ∈ remarks, x ≠ "")
    (h : fbFinish s0 e0 remarks f = (some s, some e, some r)) : r ≠ "" := by
  unfold fbFinish at h
  split at h
  · simp at h
  · simp only [Prod.mk.injEq, Option.some.injEq] at h
    obtain ⟨-, -, h3⟩ := h
    subst h3
    by_cases hrem : remarks = []
    · rw [if_pos hrem]
      decide
    · rw [if_neg hrem]
      exact joinSep_space_ne_empty hrem hall

theorem rne_fbEnd {startD : PDate} {remarks : List String} {startClean : List Char}
    {nParts : Nat} {endStr : List Char} {f : Int} {s e : PDate} {r : String}
    (hall : ∀ x ∈ remarks, x ≠ "")
    (h : fbEnd startD remarks startClean nParts endStr f = (some s, some e, some r)) :
    r ≠ "" := by
  unfold fbEnd at h
  dsimp only at h
  split at h
  · refine rne_fbFinish ?_ h
    intro x hx
    split at hx
    · exact hall x hx
    · rcases List.mem_append.1 hx with hx | hx
      · exact hall x hx
      · simp only [List.mem_singleton] at hx
        subst hx
        decide
  · split at h
    · split at h
      · simp at h
      · split at h
        · simp at h
        · refine rne_fbFinish ?_ h
          intro x hx
          rcases List.mem_append.1 hx with hx | hx
          · exact hall x hx
          · simp only [List.mem_singleton] at hx
            subst hx
            decide
    · split at h
      · exact rne_fbFinish hall h
      · split at h
        · refine rne_fbFinish ?_ h
          intro x hx
          rcases List.mem_append.1 hx with hx | hx
          · exact hall x hx
          · simp only [List.mem_singleton] at hx
            subst hx
            decide
        · simp at h

theorem rne_fallbackCore {parts : List (List Char)} {f : Int} {s e : PDate}
    {r : String} (h : fallbackCore parts f = (some s, some e, some r)) : r ≠ "" := by
  unfold fallbackCore at h
  dsimp only at h
  split at h
  · exact rne_fbEnd (by simp) h
  · split at h
    · refine rne_fbEnd ?_ h
      intro x hx
      simp only [List.mem_singleton] at hx
      subst hx
      decide
    · simp at h

theorem rne_isoBuild {d : PDate} {fb : Option Int} {s e : PDate} {r : String}
    (h : isoBuild d fb = (some s, some e, some r)) : r ≠ "" := by
  unfold isoBuild at h
  rcases fb with _ | f <;> dsimp only at h
  · simp only [Prod.mk.injEq, Option.some.injEq] at h
    obtain ⟨-, -, h3⟩ := h
    subst h3
    decide
  · split at h
    · simp at h
    · simp only [Prod.mk.injEq, Option.some.injEq] at h
      obtain ⟨-, -, h3⟩ := h
      subst h3
      decide

theorem rne_isoFall {l : List Char} {fb : Option Int} {s e : PDate} {r : String}
    (h : isoFall l fb = (some s, some e, some r)) : r ≠ "" := by
  unfold isoFall at h
  split at h
  · exact rne_isoBuild h
  · rcases fb with _ | f <;> dsimp only at h
    · simp at h
    · exact rne_fallbackCore h

theorem rne_parseNative {d : PDate} {fb : Option Int} {s e : PDate} {r : String}
    (h : parseNative d fb = (some s, some e, some r)) : r ≠ "" := by
  unfold parseNative at h
  rcases fb with _ | f <;> dsimp only at h
  · simp only [Prod.mk.injEq, Option.some.injEq] at h
    obtain ⟨-, -, h3⟩ := h
    subst h3
    decide
  · split at h
    · simp at h
    · simp only [Prod.mk.injEq, Option.some.injEq] at h
      obtain ⟨-, -, h3⟩ := h
      subst h3
      decide

theorem rne_p1Finish {s0 e0 : PDate} {rem : String} {y : Nat} {fb : Option Int}
    {s e : PDate} {r : String} (hrem : rem ≠ "")
    (h : p1Finish s0 e0 rem y fb = (some s, some e, some r)) : r ≠ "" := by
  unfold p1Finish at h
  rcases fb with _ | f <;> dsimp only at h
  · simp only [Prod.mk.injEq, Option.some.injEq] at h
    obtain ⟨-, -, h3⟩ := h
    subst h3
    exact hrem
  · split at h
    · simp at h
    · simp only [Prod.mk.injEq, Option.some.injEq] at h
      obtain ⟨-, -, h3⟩ := h
      subst h3
      exact hrem

theorem rne_p1Build {w d1 : List Char} {d2 : Option (List Char)} {y : Nat}
    {fb : Option Int} {s e : PDate} {r : String}
    (h : p1Build w d1 d2 y fb = (some s, some e, some r)) : r ≠ "" := by
  unfold p1Build at h
  split at h
  · simp at h
  · split at h
    · simp at h
    · split at h
      · simp at h
      · split at h
        · split at h
          · simp at h
          · exact rne_p1Finish (by decide) h
        · exact rne_p1Finish (by decide) h

theorem rne_p2Build {w1 w2 : List Char} {y : Nat} {fb : Option Int}
    {s e : PDate} {r : String}
    (h : p2Build w1 w2 y fb = (some s, some e, some r)) : r ≠ "" := by
  have h0 : p2Dates w1 w2 y = (some s, some e, some r) := by
    unfold p2Build at h
    rcases fb with _ | f <;> dsimp only at h
    · exact h
    · split at h
      · simp at h
      · exact h
  unfold p2Dates at h0
  split at h0
  · simp at h0
  · split at h0
    · simp at h0
    · simp only [Prod.mk.injEq, Option.some.injEq] at h0
      obtain ⟨-, -, h3⟩ := h0
      subst h3
      decide

theorem rne_p3Build {w : List Char} {y : Nat} {fb : Option Int}
    {s e : PDate} {r : String}
    (h : p3Build w y fb = (some s, some e, some r)) : r ≠ "" := by
  have h0 : p3Dates w y = (some s, some e, some r) := by
    unfold p3Build at h
    rcases fb with _ | f <;> dsimp only at h
    · exact h
    · split at h
      · simp at h
      · exact h
  unfold p3Dates at h0
  split at h0
  · simp at h0
  · simp only [Prod.mk.injEq, Option.some.injEq] at h0
    obtain ⟨-, -, h3⟩ := h0
    subst h3
    decide

theorem rne_parse {cell : DateCell} {fb : Option Int} {s e : PDate} {r : String}
    (h : parse_date_range_smart cell fb = (some s, some e, some r)) : r ≠ "" := by
  rcases cell with _ | d | str
  · simp [parse_date_range_smart] at h
  · exact rne_parseNative h
  · unfold parse_date_range_smart at h
    dsimp only at h
    split at h
    · exact rne_p1Build h
    · split at h
      · exact rne_p2Build h
      · split at h
        · split at h
          · exact rne_p3Build h
          · exact rne_isoFall h
        · exact rne_isoFall h

/-- C1 counterexample: the day-range input `"March 15-3, 2020"` (pattern
`"Month D-D, YYYY"`, cascade pattern 2 of the spec) parses successfully —
with a remark — but with `event_date_start > event_date_end`: the parser
itself never compares the two dates. -/
theorem c1_counterexample :
    parse_date_range_smart (.text "March 15-3, 2020") (some 2020)
      = (some ⟨2020, 3, 15⟩, some ⟨2020, 3, 3⟩,
         some "Parsed from 'Month Day-Day, Year' format.")
    ∧ ¬ dateLe ⟨2020, 3, 15⟩ ⟨2020, 3, 3⟩ := by decide

/-- C1 (amended): every successful parse carries a non-empty remark, and
the cascade patterns order their results as follows — the day-range
pattern returns `start <= end` unless the textual day range is inverted
(then `end.day < start.day` within the same month and year); the
cross-month pattern returns `start <= end` unless the month range is
inverted; the whole-month pattern always returns `start <= end`; the ISO
pattern always returns `start = end`.  The parser itself does not enforce
`start <= end`; inverted ranges are caught later by the validator's
date-ordering rule. -/
theorem c1_pattern_order_and_remark :
    (∀ (cell : DateCell) (fb : Option Int) (s e : PDate) (r : String),
        parse_date_range_smart cell fb = (some s, some e, some r) → r ≠ "")
    ∧ (∀ (w d1 : List Char) (d2 : Option (List Char)) (y : Nat) (fb : Option Int)
          (s e : PDate) (r : Option String),
        p1Build w d1 d2 y fb = (some s, some e, r) →
          s.year = e.year ∧ s.month = e.month ∧ (dateLe s e ∨ e.day < s.day))
    ∧ (∀ (w1 w2 : List Char) (y : Nat) (fb : Option Int) (s e : PDate)
          (r : Option String),
        p2Build w1 w2 y fb = (some s, some e, r) →
          s.year = e.year ∧ s.day = 1 ∧ (dateLe s e ∨ e.month < s.month))
    ∧ (∀ (w : List Char) (y : Nat) (fb : Option Int) (s e : PDate) (r : Option String),
        p3Build w y fb = (some s, some e, r) → dateLe s e)
    ∧ (∀ (d : PDate) (fb : Option Int) (s e : PDate) (r : Option String),
        isoBuild d fb = (some s, some e, r) → s = e) :=
  ⟨fun _ _ _ _ _ h => rne_parse h,
   fun _ _ _ _ _ _ _ _ h => ord_p1Build h,
   fun _ _ _ _ _ _ _ h => ord_p2Build h,
   fun _ _ _ _ _ _ h => ord_p3Build h,
   fun _ _ _ _ _ h => ord_isoBuild h⟩

/-- Witness for C1 (amended): the whole-month input `"November 2012"`
(spec scenario A) yields an ordered range with a non-empty remark. -/
theorem c1_pattern_order_and_remark_witness :
    dateLe ⟨2012, 11, 1⟩ ⟨2012, 11, 30⟩
    ∧ "Parsed from month-only value; assumed full month." ≠ "" :=
  ⟨c1_pattern_order_and_remark.2.2.2.1 "November".data 2012 (some 2012)
      ⟨2012, 11, 1⟩ ⟨2012, 11, 30⟩
      (some "Parsed from month-only value; assumed full month.") (by decide),
   c1_pattern_order_and_remark.1 (.text "November 2012") (some 2012)
      ⟨2012, 11, 1⟩ ⟨2012, 11, 30⟩
      "Parsed from month-only value; assumed full month." (by decide)⟩

end RiskAnalysis
